import Mathlib

/-
Verification development for the offline map-tile acquisition engine of the
LLM_Planner repository.  The repository contains three implementations of the
tile downloader:

  * src/mapping-service/src/main.py      (streaming HTTP service; namespace MappingService)
  * src/scripts/download_abingdon_tiles.py (local-area script;    namespace AbingdonScript)
  * src/scripts/download_uk_base.py       (UK-wide script;        namespace UkBase)

Each namespace below is a shallow embedding of the corresponding Python file.
Python floats are modelled as real numbers, byte strings as lists of naturals,
the filesystem tile store as a function from tile keys to optional contents,
and the random delay draw and the HTTP response as oracle parameters.
-/

/-- The per-tile status strings used by main.py and download_uk_base.py
("success", "skipped", "blocked", "failed", "timeout", "error"). -/
inductive Status where
  | success | skipped | blocked | failed | timeout | error
deriving DecidableEq, Repr

/-- Observable side effects of one tile download attempt: the mandatory sleep
before the request (with the drawn duration) and the HTTP GET itself. -/
inductive Act where
  | sleep (d : ℚ)
  | request (layer : String) (zoom : ℕ) (x y : ℤ)
deriving DecidableEq, Repr

/-- Result of the single HTTP GET issued for a tile: a response with status
code and body bytes, a timeout, or a transport exception. -/
inductive HttpResult where
  | resp (status : ℕ) (body : List ℕ)
  | timeout
  | error
deriving DecidableEq, Repr

/-- Identifies one stored tile file: {layer}/{zoom}/{x}/{y}.png. -/
structure TileKey where
  layer : String
  zoom : ℕ
  x : ℤ
  y : ℤ
deriving DecidableEq, Repr

/-- The on-disk tile store, as a map from tile keys to the stored bytes. -/
def Store : Type := TileKey → Option (List ℕ)

/-- Writing a tile file: the store afterwards maps the key to the bytes. -/
def Store.insert (s : Store) (k : TileKey) (b : List ℕ) : Store :=
  fun k' => if k' = k then some b else s k'

/-- The outcome of one call to a per-tile download function: the returned
status, the tile store after the call, and the emitted actions in order. -/
structure TileResult where
  status : Status
  store : Store
  acts : List Act

/-- The per-(layer, zoom) counters of main.py stream_tile_download. -/
structure Stats where
  success : ℕ
  skipped : ℕ
  blocked : ℕ
  failed : ℕ
  timeout : ℕ
  error : ℕ
deriving DecidableEq, Repr

/-- stats = {"success": 0, "skipped": 0, ...} at the start of a pass. -/
def Stats.init : Stats := ⟨0, 0, 0, 0, 0, 0⟩

/-- stats[result["status"]] += 1. -/
def Stats.incr (s : Stats) : Status → Stats
  | .success => { s with success := s.success + 1 }
  | .skipped => { s with skipped := s.skipped + 1 }
  | .blocked => { s with blocked := s.blocked + 1 }
  | .failed => { s with failed := s.failed + 1 }
  | .timeout => { s with timeout := s.timeout + 1 }
  | .error => { s with error := s.error + 1 }

/-- The sum of all six counters. -/
def Stats.total (s : Stats) : ℕ :=
  s.success + s.skipped + s.blocked + s.failed + s.timeout + s.error

/-- The server-sent events emitted by main.py stream_tile_download. -/
inductive Event where
  | progress (layer : String) (zoom : ℕ) (x y : ℤ) (status : Status)
      (completed total : ℕ) (stats : Stats)
  | layerComplete (layer : String) (zoom : ℕ) (stats : Stats)
  | complete
deriving DecidableEq, Repr

/-- Whether an event is a per-tile progress event. -/
def Event.isProgress : Event → Bool
  | .progress .. => true
  | _ => false

/-- Whether an event is a per-(layer, zoom) layer_complete event. -/
def Event.isLayerComplete : Event → Bool
  | .layerComplete .. => true
  | _ => false

/-- Whether an event is the final completion sentinel. -/
def Event.isComplete : Event → Bool
  | .complete => true
  | _ => false

/-- The status field of a progress event. -/
def Event.progressStatus : Event → Option Status
  | .progress _ _ _ _ st _ _ _ => some st
  | _ => none

/-- Whether an action is an HTTP request. -/
def Act.isRequest : Act → Bool
  | .request .. => true
  | _ => false

/-- Number of HTTP requests in a trace of actions. -/
def countRequests (l : List Act) : ℕ := l.countP Act.isRequest

/-- n consecutive integers starting at lo, in ascending order. -/
def intRangeAux (lo : ℤ) : ℕ → List ℤ
  | 0 => []
  | n + 1 => lo :: intRangeAux (lo + 1) n

/-- Python range(lo, hi + 1) over integers, as an ordered list. -/
def intRange (lo hi : ℤ) : List ℤ :=
  intRangeAux lo (hi + 1 - lo).toNat

theorem mem_intRangeAux : ∀ (n : ℕ) (lo a : ℤ),
    a ∈ intRangeAux lo n ↔ lo ≤ a ∧ a < lo + n := by
  intro n
  induction n with
  | zero => intro lo a; simp [intRangeAux]
  | succ k ih =>
      intro lo a
      simp only [intRangeAux, List.mem_cons, ih]
      omega

theorem mem_intRange {lo hi a : ℤ} : a ∈ intRange lo hi ↔ lo ≤ a ∧ a ≤ hi := by
  rw [intRange, mem_intRangeAux]
  omega

namespace MappingService

/-- BLOCKED_TILE_SIZE = 7412 (src/mapping-service/src/main.py). -/
def BLOCKED_TILE_SIZE : ℕ := 7412

/-- MIN_DELAY_BETWEEN_REQUESTS = 1.0 (src/mapping-service/src/main.py). -/
def MIN_DELAY_BETWEEN_REQUESTS : ℚ := 1

/-- MAX_DELAY_BETWEEN_REQUESTS = 2.0 (src/mapping-service/src/main.py). -/
def MAX_DELAY_BETWEEN_REQUESTS : ℚ := 2

/-- Embedding of main.py download_single_tile.  The stored-file check uses the
byte length of the stored content (the file size); the sleep duration and the
HTTP result are oracle inputs (random.uniform draw, network).  Order follows
the source: existence check, then the delay, then the URL/layer dispatch
(unknown layers return an error after the sleep, without a request), then the
request with its outcome classification; blocked and successful bodies are
both written to the store. -/
def download_single_tile (store : Store) (layer : String) (zoom : ℕ) (x y : ℤ)
    (delay : ℚ) (http : HttpResult) : TileResult :=
  let key : TileKey := ⟨layer, zoom, x, y⟩
  match store key with
  | some content =>
      if content.length = BLOCKED_TILE_SIZE then ⟨.blocked, store, []⟩
      else ⟨.skipped, store, []⟩
  | none =>
      if layer = "osm" ∨ layer = "satellite" then
        match http with
        | .resp st body =>
            if st ≠ 200 then
              ⟨.failed, store, [.sleep delay, .request layer zoom x y]⟩
            else if body.length = BLOCKED_TILE_SIZE then
              ⟨.blocked, store.insert key body, [.sleep delay, .request layer zoom x y]⟩
            else
              ⟨.success, store.insert key body, [.sleep delay, .request layer zoom x y]⟩
        | .timeout => ⟨.timeout, store, [.sleep delay, .request layer zoom x y]⟩
        | .error => ⟨.error, store, [.sleep delay, .request layer zoom x y]⟩
      else ⟨.error, store, [.sleep delay]⟩

/-- Accumulated output of an unfinished run of the streaming download. -/
structure RunOut where
  store : Store
  stats : Stats
  events : List Event
  acts : List Act

/-- The inner tile loop of stream_tile_download for one (layer, zoom) pass:
download each tile, increment the counter for its status, and emit one
progress event carrying the updated counters; idx counts processed tiles. -/
def runPass (delays : TileKey → ℚ) (https : TileKey → HttpResult)
    (layer : String) (zoom : ℕ) (total : ℕ) :
    List (ℤ × ℤ) → Store → Stats → ℕ → RunOut
  | [], store, stats, _ => ⟨store, stats, [], []⟩
  | (x, y) :: rest, store, stats, idx =>
      let key : TileKey := ⟨layer, zoom, x, y⟩
      let r := download_single_tile store layer zoom x y (delays key) (https key)
      let stats1 := stats.incr r.status
      let ev := Event.progress layer zoom x y r.status (idx + 1) total stats1
      let out := runPass delays https layer zoom total rest r.store stats1 (idx + 1)
      ⟨out.store, out.stats, ev :: out.events, r.acts ++ out.acts⟩

/-- Job-level output: final store, events and actions of a run. -/
structure JobOut where
  store : Store
  events : List Event
  acts : List Act

/-- The zoom loop of stream_tile_download for one layer: each zoom level gets
a fresh tile list, fresh counters, and a trailing layer_complete event. -/
def runZooms (delays : TileKey → ℚ) (https : TileKey → HttpResult)
    (tilesFor : ℕ → List (ℤ × ℤ)) (layer : String) :
    List ℕ → Store → JobOut
  | [], store => ⟨store, [], []⟩
  | z :: rest, store =>
      let tiles := tilesFor z
      let p := runPass delays https layer z tiles.length tiles store Stats.init 0
      let r := runZooms delays https tilesFor layer rest p.store
      ⟨r.store, p.events ++ [Event.layerComplete layer z p.stats] ++ r.events,
        p.acts ++ r.acts⟩

/-- The layer loop of stream_tile_download. -/
def runLayers (delays : TileKey → ℚ) (https : TileKey → HttpResult)
    (tilesFor : ℕ → List (ℤ × ℤ)) (zooms : List ℕ) :
    List String → Store → JobOut
  | [], store => ⟨store, [], []⟩
  | layer :: rest, store =>
      let a := runZooms delays https tilesFor layer zooms store
      let b := runLayers delays https tilesFor zooms rest a.store
      ⟨b.store, a.events ++ b.events, a.acts ++ b.acts⟩

/-- range(min_zoom, max_zoom + 1). -/
def zoomRange (minZoom maxZoom : ℕ) : List ℕ :=
  List.range' minZoom (maxZoom + 1 - minZoom)

/-- Embedding of main.py stream_tile_download.  The per-zoom tile enumeration
get_tiles_in_radius(lat, lon, radius_miles, zoom) is abstracted as the
function argument tilesFor (its geometry is embedded separately below); the
event stream ends with the single completion sentinel. -/
def stream_tile_download (layers : List String) (minZoom maxZoom : ℕ)
    (tilesFor : ℕ → List (ℤ × ℤ)) (store : Store)
    (delays : TileKey → ℚ) (https : TileKey → HttpResult) : JobOut :=
  let r := runLayers delays https tilesFor (zoomRange minZoom maxZoom) layers store
  ⟨r.store, r.events ++ [Event.complete], r.acts⟩

end MappingService

namespace MappingService

/-- The f-string path "/app/map-tiles/{layer}/{zoom}/{x}/{y}.png" used by
main.py for every stored tile. -/
def tile_path (layer : String) (zoom : ℕ) (x y : ℤ) : String :=
  "/app/map-tiles/" ++ layer ++ "/" ++ toString zoom ++ "/" ++ toString x ++
    "/" ++ toString y ++ ".png"

/-- Filesystem operations performed by the tile-saving code.  openTrunc is
the effect of Python open(path, "wb"): it creates the file, truncating it to
length zero; writeBytes is f.write(content); rename is os.rename (never used
by the source, but needed to state the atomic-write claim). -/
inductive FsOp where
  | mkdirParents (p : String)
  | openTrunc (p : String)
  | writeBytes (p : String) (n : ℕ)
  | rename (src dst : String)
deriving DecidableEq, Repr

/-- Whether a filesystem operation is a rename. -/
def FsOp.isRename : FsOp → Bool
  | .rename .. => true
  | _ => false

/-- The exact sequence of filesystem operations executed by main.py when it
saves a tile of n bytes, from

    tile_path.parent.mkdir(parents=True, exist_ok=True)
    with open(tile_path, "wb") as f:
        f.write(content)

The bytes go directly to the final tile path. -/
def save_tile_ops (layer : String) (zoom : ℕ) (x y : ℤ) (n : ℕ) : List FsOp :=
  [.mkdirParents (tile_path layer zoom x y),
   .openTrunc (tile_path layer zoom x y),
   .writeBytes (tile_path layer zoom x y) n]

/-- Effect of one filesystem operation on the observable size of each path
(none = the file does not exist). -/
def applyOp (sz : String → Option ℕ) : FsOp → (String → Option ℕ)
  | .mkdirParents _ => sz
  | .openTrunc p => fun q => if q = p then some 0 else sz q
  | .writeBytes p n => fun q => if q = p then some n else sz q
  | .rename src dst => fun q =>
      if q = dst then sz src else if q = src then none else sz q

/-- The sizes of the file at path p that a concurrent reader can observe
while the operations run: one observation point before each operation and
one after the last. -/
def observations (sz : String → Option ℕ) (p : String) : List FsOp → List (Option ℕ)
  | [] => [sz p]
  | op :: rest => sz p :: observations (applyOp sz op) p rest

end MappingService

namespace AbingdonScript

/-- BLOCKED_TILE_SIZE = 7412 (src/scripts/download_abingdon_tiles.py). -/
def BLOCKED_TILE_SIZE : ℕ := 7412

/-- MIN_DELAY_BETWEEN_REQUESTS = 3.0 (src/scripts/download_abingdon_tiles.py). -/
def MIN_DELAY_BETWEEN_REQUESTS : ℚ := 3

/-- MAX_DELAY_BETWEEN_REQUESTS = 5.0 (src/scripts/download_abingdon_tiles.py). -/
def MAX_DELAY_BETWEEN_REQUESTS : ℚ := 5

/-- Result of one call to the Abingdon script download_tile: the returned
Boolean (True = skipped-good or freshly downloaded, False = blocked or any
failure), the tile store after the call, and the emitted actions. -/
structure ScriptResult where
  result : Bool
  store : Store
  acts : List Act

/-- Embedding of download_abingdon_tiles.py download_tile.  If the tile file
exists: a blocked-size file falls through to a re-download only when
redownload_small is set, any other size returns True at once, and a
blocked-size file without redownload_small returns False at once — all three
without sleeping or requesting.  Otherwise the script sleeps the drawn delay
and issues the request: HTTP 200 stores the body and returns False when the
body length equals BLOCKED_TILE_SIZE (blocked) and True otherwise; non-200,
timeout and exceptions return False without storing.  The layer argument is
assumed valid ("osm" or "satellite", the only keys of TILE_SOURCES); the
subdomain hash used for the URL is not modelled. -/
def download_tile (store : Store) (layer : String) (zoom : ℕ) (x y : ℤ)
    (redownload_small : Bool) (delay : ℚ) (http : HttpResult) : ScriptResult :=
  let key : TileKey := ⟨layer, zoom, x, y⟩
  let fetch : ScriptResult :=
    match http with
    | .resp st body =>
        if st = 200 then
          if body.length = BLOCKED_TILE_SIZE then
            ⟨false, store.insert key body, [.sleep delay, .request layer zoom x y]⟩
          else
            ⟨true, store.insert key body, [.sleep delay, .request layer zoom x y]⟩
        else ⟨false, store, [.sleep delay, .request layer zoom x y]⟩
    | .timeout => ⟨false, store, [.sleep delay, .request layer zoom x y]⟩
    | .error => ⟨false, store, [.sleep delay, .request layer zoom x y]⟩
  match store key with
  | some content =>
      if content.length = BLOCKED_TILE_SIZE ∧ redownload_small then fetch
      else if ¬ content.length = BLOCKED_TILE_SIZE then ⟨true, store, []⟩
      else ⟨false, store, []⟩
  | none => fetch

end AbingdonScript

namespace UkBase

/-- BLOCKED_TILE_SIZE = 7412 (src/scripts/download_uk_base.py). -/
def BLOCKED_TILE_SIZE : ℕ := 7412

/-- MIN_DELAY_BETWEEN_REQUESTS = 3.0 (src/scripts/download_uk_base.py). -/
def MIN_DELAY_BETWEEN_REQUESTS : ℚ := 3

/-- MAX_DELAY_BETWEEN_REQUESTS = 5.0 (src/scripts/download_uk_base.py). -/
def MAX_DELAY_BETWEEN_REQUESTS : ℚ := 5

/-- Embedding of download_uk_base.py download_tile.  An existing file of
exactly BLOCKED_TILE_SIZE bytes is returned as blocked unless
redownload_small is set, in which case the fetch is re-attempted; any other
existing file is skipped.  A fetch sleeps the drawn delay, then issues the
request: non-200 is failed; a 200 body of exactly BLOCKED_TILE_SIZE bytes is
stored and reported blocked; any other 200 body is stored and reported
success; timeouts and exceptions map to their statuses.  The layer argument
is assumed valid ("osm" or "satellite"; an unknown layer raises ValueError in
the source and is not modelled). -/
def download_tile (store : Store) (layer : String) (zoom : ℕ) (x y : ℤ)
    (redownload_small : Bool) (delay : ℚ) (http : HttpResult) : TileResult :=
  let key : TileKey := ⟨layer, zoom, x, y⟩
  let fetch : TileResult :=
    match http with
    | .resp st body =>
        if st ≠ 200 then ⟨.failed, store, [.sleep delay, .request layer zoom x y]⟩
        else if body.length = BLOCKED_TILE_SIZE then
          ⟨.blocked, store.insert key body, [.sleep delay, .request layer zoom x y]⟩
        else
          ⟨.success, store.insert key body, [.sleep delay, .request layer zoom x y]⟩
    | .timeout => ⟨.timeout, store, [.sleep delay, .request layer zoom x y]⟩
    | .error => ⟨.error, store, [.sleep delay, .request layer zoom x y]⟩
  match store key with
  | some content =>
      if content.length = BLOCKED_TILE_SIZE then
        if redownload_small then fetch
        else ⟨.blocked, store, []⟩
      else ⟨.skipped, store, []⟩
  | none => fetch

end UkBase

open Real in
/-- Python int() truncates toward zero (int(0.7) = 0, int(-0.7) = 0). -/
noncomputable def float_int (r : ℝ) : ℤ :=
  if 0 ≤ r then ⌊r⌋ else -⌊-r⌋

theorem float_int_of_nonneg {r : ℝ} (h : 0 ≤ r) : float_int r = ⌊r⌋ := by
  simp [float_int, h]

namespace MappingService

open Real

/-- Embedding of main.py lat_lon_to_tile_coords: the slippy-map formula
x = int((lon + 180) / 360 * n), y = int((1 - asinh(tan(lat_rad)) / pi) / 2 * n)
with n = 2 ** zoom and lat_rad = math.radians(lat). -/
noncomputable def lat_lon_to_tile_coords (lat lon : ℝ) (zoom : ℕ) : ℤ × ℤ :=
  let lat_rad := lat * π / 180
  let n : ℝ := 2 ^ zoom
  (float_int ((lon + 180) / 360 * n),
   float_int ((1 - Real.arsinh (Real.tan lat_rad) / π) / 2 * n))

/-- north = lat + radius_miles / 69.0. -/
noncomputable def north (lat radius_miles : ℝ) : ℝ := lat + radius_miles / 69

/-- south = lat - radius_miles / 69.0. -/
noncomputable def south (lat radius_miles : ℝ) : ℝ := lat - radius_miles / 69

/-- east = lon + radius_miles / (69.0 * cos(radians(lat))). -/
noncomputable def east (lat lon radius_miles : ℝ) : ℝ :=
  lon + radius_miles / (69 * Real.cos (lat * π / 180))

/-- west = lon - radius_miles / (69.0 * cos(radians(lat))). -/
noncomputable def west (lat lon radius_miles : ℝ) : ℝ :=
  lon - radius_miles / (69 * Real.cos (lat * π / 180))

/-- min_x = min over the four corner tiles (main.py get_tiles_in_radius). -/
noncomputable def min_x (lat lon radius_miles : ℝ) (zoom : ℕ) : ℤ :=
  min (min (lat_lon_to_tile_coords (north lat radius_miles) (west lat lon radius_miles) zoom).1
           (lat_lon_to_tile_coords (north lat radius_miles) (east lat lon radius_miles) zoom).1)
      (min (lat_lon_to_tile_coords (south lat radius_miles) (west lat lon radius_miles) zoom).1
           (lat_lon_to_tile_coords (south lat radius_miles) (east lat lon radius_miles) zoom).1)

/-- max_x = max over the four corner tiles (main.py get_tiles_in_radius). -/
noncomputable def max_x (lat lon radius_miles : ℝ) (zoom : ℕ) : ℤ :=
  max (max (lat_lon_to_tile_coords (north lat radius_miles) (west lat lon radius_miles) zoom).1
           (lat_lon_to_tile_coords (north lat radius_miles) (east lat lon radius_miles) zoom).1)
      (max (lat_lon_to_tile_coords (south lat radius_miles) (west lat lon radius_miles) zoom).1
           (lat_lon_to_tile_coords (south lat radius_miles) (east lat lon radius_miles) zoom).1)

/-- min_y = min over the four corner tiles (main.py get_tiles_in_radius). -/
noncomputable def min_y (lat lon radius_miles : ℝ) (zoom : ℕ) : ℤ :=
  min (min (lat_lon_to_tile_coords (north lat radius_miles) (west lat lon radius_miles) zoom).2
           (lat_lon_to_tile_coords (north lat radius_miles) (east lat lon radius_miles) zoom).2)
      (min (lat_lon_to_tile_coords (south lat radius_miles) (west lat lon radius_miles) zoom).2
           (lat_lon_to_tile_coords (south lat radius_miles) (east lat lon radius_miles) zoom).2)

/-- max_y = max over the four corner tiles (main.py get_tiles_in_radius). -/
noncomputable def max_y (lat lon radius_miles : ℝ) (zoom : ℕ) : ℤ :=
  max (max (lat_lon_to_tile_coords (north lat radius_miles) (west lat lon radius_miles) zoom).2
           (lat_lon_to_tile_coords (north lat radius_miles) (east lat lon radius_miles) zoom).2)
      (max (lat_lon_to_tile_coords (south lat radius_miles) (west lat lon radius_miles) zoom).2
           (lat_lon_to_tile_coords (south lat radius_miles) (east lat lon radius_miles) zoom).2)

/-- Embedding of main.py get_tiles_in_radius: converts the radius to a
bounding box, takes the min/max of the four corner tile coordinates, and
returns every tile of the bounding box, x-major then y ascending.  No
distance check of any kind is applied to the candidate tiles. -/
noncomputable def get_tiles_in_radius (lat lon radius_miles : ℝ) (zoom : ℕ) :
    List (ℤ × ℤ) :=
  (intRange (min_x lat lon radius_miles zoom) (max_x lat lon radius_miles zoom)).flatMap
    fun x =>
      (intRange (min_y lat lon radius_miles zoom) (max_y lat lon radius_miles zoom)).map
        fun y => (x, y)

theorem mem_get_tiles_in_radius {lat lon radius_miles : ℝ} {zoom : ℕ} {x y : ℤ} :
    (x, y) ∈ get_tiles_in_radius lat lon radius_miles zoom ↔
      (min_x lat lon radius_miles zoom ≤ x ∧ x ≤ max_x lat lon radius_miles zoom) ∧
      (min_y lat lon radius_miles zoom ≤ y ∧ y ≤ max_y lat lon radius_miles zoom) := by
  unfold get_tiles_in_radius
  rw [List.mem_flatMap]
  constructor
  · rintro ⟨x0, hx0, hmem⟩
    obtain ⟨y0, hy0, hEq⟩ := List.mem_map.mp hmem
    obtain ⟨rfl, rfl⟩ := Prod.mk.injEq .. ▸ hEq
    exact ⟨mem_intRange.mp hx0, mem_intRange.mp hy0⟩
  · rintro ⟨hx, hy⟩
    exact ⟨x, mem_intRange.mpr hx, List.mem_map.mpr ⟨y, mem_intRange.mpr hy, rfl⟩⟩

end MappingService

namespace AbingdonScript

open Real

/-- Embedding of download_abingdon_tiles.py lat_lon_to_tile (the same
slippy-map formula as the mapping service). -/
noncomputable def lat_lon_to_tile (lat lon : ℝ) (zoom : ℕ) : ℤ × ℤ :=
  let lat_rad := lat * π / 180
  let n : ℝ := 2 ^ zoom
  (float_int ((lon + 180) / 360 * n),
   float_int ((1 - Real.arsinh (Real.tan lat_rad) / π) / 2 * n))

/-- Embedding of download_abingdon_tiles.py tile_to_lat_lon:
lon = x / n * 360 - 180, lat = degrees(atan(sinh(pi * (1 - 2 * y / n)))).
Returns (lat, lon) in degrees, as the source does. -/
noncomputable def tile_to_lat_lon (x y : ℝ) (zoom : ℕ) : ℝ × ℝ :=
  let n : ℝ := 2 ^ zoom
  let lon := x / n * 360 - 180
  let lat_rad := Real.arctan (Real.sinh (π * (1 - 2 * y / n)))
  (lat_rad * 180 / π, lon)

/-- Python math.atan2(y, x) on the reals (signed zeros aside). -/
noncomputable def atan2 (y x : ℝ) : ℝ :=
  if 0 < x then Real.arctan (y / x)
  else if x < 0 then
    (if 0 ≤ y then Real.arctan (y / x) + π else Real.arctan (y / x) - π)
  else
    (if 0 < y then π / 2 else if y < 0 then -(π / 2) else 0)

/-- The inline Haversine block of download_abingdon_tiles.py
get_tiles_in_radius, factored as a function of the two points in degrees:
a = sin(dlat/2)**2 + cos(lat1)*cos(lat2)*sin(dlon/2)**2,
c = 2*atan2(sqrt(a), sqrt(1-a)), distance = 6371*c (kilometres). -/
noncomputable def haversine_km (lat1_deg lon1_deg lat2_deg lon2_deg : ℝ) : ℝ :=
  let lat1 := lat1_deg * π / 180
  let lat2 := lat2_deg * π / 180
  let dlat := (lat2_deg - lat1_deg) * π / 180
  let dlon := (lon2_deg - lon1_deg) * π / 180
  let a := Real.sin (dlat / 2) ^ 2 +
    Real.cos lat1 * Real.cos lat2 * Real.sin (dlon / 2) ^ 2
  let c := 2 * atan2 (Real.sqrt a) (Real.sqrt (1 - a))
  6371 * c

/-- Distance from the area center to the center point of tile (x, y), via
tile_to_lat_lon(x + 0.5, y + 0.5, zoom), as computed inside the loop of
get_tiles_in_radius. -/
noncomputable def tile_center_dist_km (center_lat center_lon : ℝ) (x y : ℤ)
    (zoom : ℕ) : ℝ :=
  let tc := tile_to_lat_lon ((x : ℝ) + 0.5) ((y : ℝ) + 0.5) zoom
  haversine_km center_lat center_lon tc.1 tc.2

/-- x_min of the candidate box: from the (lat_min, lon_min) corner. -/
noncomputable def x_min (center_lat center_lon radius_km : ℝ) (zoom : ℕ) : ℤ :=
  (lat_lon_to_tile (center_lat - radius_km / 111) (center_lon - radius_km / 70) zoom).1

/-- y_max of the candidate box: from the (lat_min, lon_min) corner. -/
noncomputable def y_max (center_lat center_lon radius_km : ℝ) (zoom : ℕ) : ℤ :=
  (lat_lon_to_tile (center_lat - radius_km / 111) (center_lon - radius_km / 70) zoom).2

/-- x_max of the candidate box: from the (lat_max, lon_max) corner. -/
noncomputable def x_max (center_lat center_lon radius_km : ℝ) (zoom : ℕ) : ℤ :=
  (lat_lon_to_tile (center_lat + radius_km / 111) (center_lon + radius_km / 70) zoom).1

/-- y_min of the candidate box: from the (lat_max, lon_max) corner. -/
noncomputable def y_min (center_lat center_lon radius_km : ℝ) (zoom : ℕ) : ℤ :=
  (lat_lon_to_tile (center_lat + radius_km / 111) (center_lon + radius_km / 70) zoom).2

open scoped Classical in
/-- Embedding of download_abingdon_tiles.py get_tiles_in_radius: the radius
(kilometres) is converted to the candidate bounding box via
radius_lat = radius_km / 111.0 and radius_lon = radius_km / 70.0, the two
corner tiles give the x and y ranges, and a candidate tile is kept exactly
when the Haversine distance from its center to the area center is at most
radius_km. -/
noncomputable def get_tiles_in_radius (center_lat center_lon radius_km : ℝ)
    (zoom : ℕ) : List (ℤ × ℤ) :=
  (intRange (x_min center_lat center_lon radius_km zoom)
            (x_max center_lat center_lon radius_km zoom)).flatMap
    fun x =>
      ((intRange (y_min center_lat center_lon radius_km zoom)
                 (y_max center_lat center_lon radius_km zoom)).filter
        fun y => decide (tile_center_dist_km center_lat center_lon x y zoom ≤ radius_km)).map
        fun y => (x, y)

end AbingdonScript

section RealFacts

open Real

theorem float_int_eq_of {r : ℝ} {k : ℤ} (h0 : 0 ≤ k) (h1 : (k : ℝ) ≤ r)
    (h2 : r < k + 1) : float_int r = k := by
  have hr : 0 ≤ r := le_trans (by exact_mod_cast h0) h1
  rw [float_int_of_nonneg hr]
  exact Int.floor_eq_iff.mpr ⟨h1, h2⟩

theorem arsinh_one_pos : 0 < Real.arsinh 1 :=
  Real.arsinh_pos_iff.mpr one_pos

theorem arsinh_one_lt_one : Real.arsinh 1 < 1 := by
  have h2 : Real.sqrt 2 < 1.5 := by
    rw [show (1.5 : ℝ) = Real.sqrt (1.5 ^ 2) by
      rw [Real.sqrt_sq (by norm_num)]]
    exact Real.sqrt_lt_sqrt (by norm_num) (by norm_num)
  have hpos : (0 : ℝ) < 1 + Real.sqrt (1 + 1 ^ 2) := by positivity
  have : Real.arsinh 1 = Real.log (1 + Real.sqrt (1 + 1 ^ 2)) := by
    rw [Real.arsinh]
  rw [this, Real.log_lt_iff_lt_exp hpos]
  have he : (2.7182818283 : ℝ) < Real.exp 1 := Real.exp_one_gt_d9
  have : Real.sqrt (1 + 1 ^ 2) = Real.sqrt 2 := by norm_num
  rw [this]
  linarith

theorem arsinh_one_lt_pi : Real.arsinh 1 < π :=
  lt_trans arsinh_one_lt_one (lt_trans one_lt_two (by linarith [Real.pi_gt_three]))

theorem cos_eight_tenths_ge : (0.65 : ℝ) ≤ Real.cos 0.8 := by
  have h := Real.cos_bound (x := 0.8) (by rw [abs_of_nonneg] <;> norm_num)
  rw [abs_le] at h
  have := h.1
  rw [abs_of_nonneg (by norm_num : (0:ℝ) ≤ 0.8)] at this
  nlinarith [this]

theorem tan_le_of_le_eight_tenths {x : ℝ} (h0 : 0 ≤ x) (h8 : x ≤ 0.8) :
    Real.tan x ≤ 1.6 := by
  have hcos : Real.cos 0.8 ≤ Real.cos x :=
    Real.cos_le_cos_of_nonneg_of_le_pi h0 (by linarith [Real.pi_gt_three]) h8
  have hc : (0.65 : ℝ) ≤ Real.cos x := le_trans cos_eight_tenths_ge hcos
  have hsin : Real.sin x ≤ 1 := Real.sin_le_one x
  rw [Real.tan_eq_sin_div_cos]
  calc Real.sin x / Real.cos x ≤ 1 / 0.65 := by
        apply div_le_div₀ (by norm_num) hsin (by norm_num) hc
    _ ≤ 1.6 := by norm_num

theorem sinh_pi_gt_nine : (9 : ℝ) < Real.sinh π := by
  have h3 : Real.sinh 3 < Real.sinh π := Real.sinh_lt_sinh.mpr Real.pi_gt_three
  have hexp3 : (20 : ℝ) < Real.exp 3 := by
    have he : (2.7182818283 : ℝ) < Real.exp 1 := Real.exp_one_gt_d9
    have h : Real.exp 3 = Real.exp 1 ^ 3 := by
      rw [show (3 : ℝ) = ((3 : ℕ) : ℝ) * 1 by norm_num, Real.exp_nat_mul]
    have hcube : (2.7182818283 : ℝ) ^ 3 < Real.exp 1 ^ 3 :=
      pow_lt_pow_left₀ he (by norm_num) (by norm_num)
    rw [h]
    nlinarith [hcube]
  have hexpneg : Real.exp (-3) < 1 := Real.exp_lt_one_iff.mpr (by norm_num)
  have := Real.sinh_eq 3
  nlinarith [this]

theorem arsinh_tan_lt_pi {x : ℝ} (h0 : 0 ≤ x) (h8 : x ≤ 0.8) :
    Real.arsinh (Real.tan x) < π := by
  have h1 : Real.tan x ≤ 1.6 := tan_le_of_le_eight_tenths h0 h8
  have h2 : Real.tan x < Real.sinh π := lt_of_le_of_lt h1
    (lt_trans (by norm_num) sinh_pi_gt_nine)
  calc Real.arsinh (Real.tan x) < Real.arsinh (Real.sinh π) :=
        Real.arsinh_lt_arsinh.mpr h2
    _ = π := Real.arsinh_sinh π

theorem arsinh_tan_pos {x : ℝ} (h0 : 0 < x) (h2 : x < π / 2) :
    0 < Real.arsinh (Real.tan x) :=
  Real.arsinh_pos_iff.mpr (Real.tan_pos_of_pos_of_lt_pi_div_two h0 h2)

end RealFacts

namespace AbingdonScript

open Real

/-- Membership in the Abingdon enumeration: a tile is returned exactly when
it lies in the candidate bounding-box ranges and its center passes the
Haversine distance check. -/
theorem mem_tiles {center_lat center_lon radius_km : ℝ} {zoom : ℕ} {x y : ℤ} :
    (x, y) ∈ get_tiles_in_radius center_lat center_lon radius_km zoom ↔
      (x_min center_lat center_lon radius_km zoom ≤ x ∧
       x ≤ x_max center_lat center_lon radius_km zoom) ∧
      (y_min center_lat center_lon radius_km zoom ≤ y ∧
       y ≤ y_max center_lat center_lon radius_km zoom) ∧
      tile_center_dist_km center_lat center_lon x y zoom ≤ radius_km := by
  unfold get_tiles_in_radius
  rw [List.mem_flatMap]
  constructor
  · rintro ⟨x0, hx0, hmem⟩
    obtain ⟨y0, hy0, hEq⟩ := List.mem_map.mp hmem
    obtain ⟨rfl, rfl⟩ := Prod.mk.injEq .. ▸ hEq
    obtain ⟨hy1, hy2⟩ := List.mem_filter.mp hy0
    refine ⟨mem_intRange.mp hx0, mem_intRange.mp hy1, ?_⟩
    exact of_decide_eq_true hy2
  · rintro ⟨hx, hy, hd⟩
    refine ⟨x, mem_intRange.mpr hx, List.mem_map.mpr ⟨y, ?_, rfl⟩⟩
    exact List.mem_filter.mpr ⟨mem_intRange.mpr hy, decide_eq_true hd⟩

theorem atan2_sqrt_half : atan2 (Real.sqrt (1 / 2)) (Real.sqrt (1 / 2)) = π / 4 := by
  have hpos : 0 < Real.sqrt (1 / 2) := Real.sqrt_pos.mpr (by norm_num)
  rw [atan2, if_pos hpos, div_self (ne_of_gt hpos), Real.arctan_one]

theorem sin_pi_div_four_sq : Real.sin (π / 4) ^ 2 = 1 / 2 := by
  rw [Real.sin_pi_div_four]
  rw [div_pow, Real.sq_sqrt (by norm_num : (2:ℝ) ≥ 0)]
  norm_num

/-- The Haversine distance from (0, 0) to the point (t in radians, -90 deg)
is 6371 * pi / 2 for every latitude written as t * 180 / pi degrees: with a
quarter-turn longitude gap and one endpoint on the equator, the a term of
the formula collapses to 1/2 exactly. -/
theorem haversine_quarter (t : ℝ) :
    haversine_km 0 0 (t * 180 / π) (-90) = 6371 * (π / 2) := by
  have hpi : π ≠ 0 := ne_of_gt Real.pi_pos
  unfold haversine_km
  have h1 : (0 : ℝ) * π / 180 = 0 := by ring
  have h2 : t * 180 / π * π / 180 = t := by field_simp
  have h3 : (t * 180 / π - 0) * π / 180 = t := by field_simp
  have h4 : (-90 - 0 : ℝ) * π / 180 = -(π / 2) := by ring
  rw [h1, h2, h3, h4]
  dsimp only
  have h5 : (-(π / 2) / 2) = -(π / 4) := by ring
  rw [h5, Real.sin_neg, neg_sq, sin_pi_div_four_sq, Real.cos_zero]
  have h6 : Real.sin (t / 2) ^ 2 = 1 / 2 - Real.cos (2 * (t / 2)) / 2 :=
    Real.sin_sq_eq_half_sub (t / 2)
  rw [show 2 * (t / 2) = t by ring] at h6
  rw [h6]
  have h7 : 1 / 2 - Real.cos t / 2 + 1 * Real.cos t * (1 / 2) = 1 / 2 := by ring
  rw [h7]
  rw [show (1 : ℝ) - 1 / 2 = 1 / 2 by norm_num]
  rw [atan2_sqrt_half]
  ring

/-- The same collapse for the distance from (45, 90) to the origin point
(0, 0): the a term is sin(pi/8)^2 + cos(pi/4)/2 = 1/2 exactly. -/
theorem haversine_45_90 : haversine_km 45 90 0 0 = 6371 * (π / 2) := by
  unfold haversine_km
  have h1 : (45 : ℝ) * π / 180 = π / 4 := by ring
  have h2 : (0 : ℝ) * π / 180 = 0 := by ring
  have h3 : (0 - 45 : ℝ) * π / 180 = -(π / 4) := by ring
  have h4 : (0 - 90 : ℝ) * π / 180 = -(π / 2) := by ring
  rw [h1, h2, h3, h4]
  dsimp only
  have h5 : (-(π / 4) / 2) = -(π / 8) := by ring
  have h6 : (-(π / 2) / 2) = -(π / 4) := by ring
  rw [h5, h6, Real.sin_neg, Real.sin_neg, neg_sq, neg_sq, sin_pi_div_four_sq,
    Real.cos_zero]
  have h7 : Real.sin (π / 8) ^ 2 = 1 / 2 - Real.cos (2 * (π / 8)) / 2 :=
    Real.sin_sq_eq_half_sub (π / 8)
  rw [show 2 * (π / 8) = π / 4 by ring, Real.cos_pi_div_four] at h7
  rw [h7]
  have h8 : 1 / 2 - Real.sqrt 2 / 2 / 2 + Real.cos (π / 4) * 1 * (1 / 2) = 1 / 2 := by
    rw [Real.cos_pi_div_four]; ring
  rw [h8]
  rw [show (1 : ℝ) - 1 / 2 = 1 / 2 by norm_num]
  rw [atan2_sqrt_half]
  ring

/-- The center of tile (0, 0) at zoom 1 in the tile grid, used by the claim
about the mapping-service enumeration: its longitude is -90 degrees and the
distance from (0, 0) collapses to a quarter of the great circle. -/
theorem tile_center_dist_00_zoom1 :
    tile_center_dist_km 0 0 0 0 1 = 6371 * (π / 2) := by
  unfold tile_center_dist_km tile_to_lat_lon
  push_cast
  have h1 : π * (1 - 2 * (0 + 0.5) / (2 : ℝ) ^ (1 : ℕ)) = π / 2 := by
    norm_num
    ring
  have h2 : (0 + 0.5) / (2 : ℝ) ^ (1 : ℕ) * 360 - 180 = -90 := by norm_num
  rw [h1, h2]
  exact haversine_quarter (Real.arctan (Real.sinh (π / 2)))

/-- The center of tile (0, 0) at zoom 0 is the lat/lon origin. -/
theorem tile_center_dist_00_zoom0 :
    tile_center_dist_km 45 90 0 0 0 = 6371 * (π / 2) := by
  unfold tile_center_dist_km tile_to_lat_lon
  push_cast
  have h1 : π * (1 - 2 * (0 + 0.5) / (2 : ℝ) ^ (0 : ℕ)) = 0 := by norm_num
  have h2 : (0 + 0.5) / (2 : ℝ) ^ (0 : ℕ) * 360 - 180 = 0 := by norm_num
  rw [h1, h2, Real.sinh_zero, Real.arctan_zero]
  rw [show (0 : ℝ) * 180 / π = 0 by ring]
  exact haversine_45_90

end AbingdonScript

namespace MappingService

open Real

theorem arsinh_div_pi_mem : 0 < Real.arsinh 1 / π ∧ Real.arsinh 1 / π < 1 :=
  ⟨div_pos arsinh_one_pos Real.pi_pos,
   (div_lt_one Real.pi_pos).mpr arsinh_one_lt_pi⟩

theorem corner_nw_eval : lat_lon_to_tile_coords 45 (-45) 1 = (0, 0) := by
  unfold lat_lon_to_tile_coords
  dsimp only
  rw [Prod.mk.injEq]
  constructor
  · rw [show ((-45 : ℝ) + 180) / 360 * 2 ^ (1 : ℕ) = 3 / 4 by norm_num]
    exact float_int_eq_of le_rfl (by norm_num) (by norm_num)
  · rw [show (45 : ℝ) * π / 180 = π / 4 by ring, Real.tan_pi_div_four]
    rw [show (1 - Real.arsinh 1 / π) / 2 * 2 ^ (1 : ℕ) = 1 - Real.arsinh 1 / π by ring]
    obtain ⟨hp, hl⟩ := arsinh_div_pi_mem
    exact float_int_eq_of le_rfl (by push_cast; linarith) (by push_cast; linarith)

theorem corner_ne_eval : lat_lon_to_tile_coords 45 45 1 = (1, 0) := by
  unfold lat_lon_to_tile_coords
  dsimp only
  rw [Prod.mk.injEq]
  constructor
  · rw [show ((45 : ℝ) + 180) / 360 * 2 ^ (1 : ℕ) = 5 / 4 by norm_num]
    exact float_int_eq_of (by norm_num) (by norm_num) (by norm_num)
  · rw [show (45 : ℝ) * π / 180 = π / 4 by ring, Real.tan_pi_div_four]
    rw [show (1 - Real.arsinh 1 / π) / 2 * 2 ^ (1 : ℕ) = 1 - Real.arsinh 1 / π by ring]
    obtain ⟨hp, hl⟩ := arsinh_div_pi_mem
    exact float_int_eq_of le_rfl (by push_cast; linarith) (by push_cast; linarith)

theorem corner_sw_eval : lat_lon_to_tile_coords (-45) (-45) 1 = (0, 1) := by
  unfold lat_lon_to_tile_coords
  dsimp only
  rw [Prod.mk.injEq]
  constructor
  · rw [show ((-45 : ℝ) + 180) / 360 * 2 ^ (1 : ℕ) = 3 / 4 by norm_num]
    exact float_int_eq_of le_rfl (by norm_num) (by norm_num)
  · rw [show (-45 : ℝ) * π / 180 = -(π / 4) by ring, Real.tan_neg,
      Real.tan_pi_div_four, Real.arsinh_neg]
    rw [show (1 - -Real.arsinh 1 / π) / 2 * 2 ^ (1 : ℕ) = 1 + Real.arsinh 1 / π by ring]
    obtain ⟨hp, hl⟩ := arsinh_div_pi_mem
    exact float_int_eq_of (by norm_num) (by push_cast; linarith) (by push_cast; linarith)

theorem corner_se_eval : lat_lon_to_tile_coords (-45) 45 1 = (1, 1) := by
  unfold lat_lon_to_tile_coords
  dsimp only
  rw [Prod.mk.injEq]
  constructor
  · rw [show ((45 : ℝ) + 180) / 360 * 2 ^ (1 : ℕ) = 5 / 4 by norm_num]
    exact float_int_eq_of (by norm_num) (by norm_num) (by norm_num)
  · rw [show (-45 : ℝ) * π / 180 = -(π / 4) by ring, Real.tan_neg,
      Real.tan_pi_div_four, Real.arsinh_neg]
    rw [show (1 - -Real.arsinh 1 / π) / 2 * 2 ^ (1 : ℕ) = 1 + Real.arsinh 1 / π by ring]
    obtain ⟨hp, hl⟩ := arsinh_div_pi_mem
    exact float_int_eq_of (by norm_num) (by push_cast; linarith) (by push_cast; linarith)

theorem bounds_eval :
    min_x 0 0 3105 1 = 0 ∧ max_x 0 0 3105 1 = 1 ∧
    min_y 0 0 3105 1 = 0 ∧ max_y 0 0 3105 1 = 1 := by
  have hn : north 0 3105 = 45 := by unfold north; norm_num
  have hs : south 0 3105 = -45 := by unfold south; norm_num
  have he : east 0 0 3105 = 45 := by
    unfold east
    rw [show (0 : ℝ) * π / 180 = 0 by ring, Real.cos_zero]
    norm_num
  have hw : west 0 0 3105 = -45 := by
    unfold west
    rw [show (0 : ℝ) * π / 180 = 0 by ring, Real.cos_zero]
    norm_num
  refine ⟨?_, ?_, ?_, ?_⟩
  · unfold min_x
    rw [hn, hs, he, hw, corner_nw_eval, corner_ne_eval, corner_sw_eval, corner_se_eval]
    norm_num
  · unfold max_x
    rw [hn, hs, he, hw, corner_nw_eval, corner_ne_eval, corner_sw_eval, corner_se_eval]
    norm_num
  · unfold min_y
    rw [hn, hs, he, hw, corner_nw_eval, corner_ne_eval, corner_sw_eval, corner_se_eval]
    norm_num
  · unfold max_y
    rw [hn, hs, he, hw, corner_nw_eval, corner_ne_eval, corner_sw_eval, corner_se_eval]
    norm_num

end MappingService

namespace AbingdonScript

open Real

theorem c10_y_eval {d : ℝ} (hd0 : 0 < 45 + d) (hd8 : 45 + d ≤ 45.001) :
    float_int ((1 - Real.arsinh (Real.tan ((45 + d) * π / 180)) / π) / 2 * 2 ^ (0 : ℕ)) = 0 := by
  set x := (45 + d) * π / 180 with hx
  have hxpos : 0 < x := by
    have := Real.pi_pos
    rw [hx]; positivity
  have hx8 : x ≤ 0.8 := by
    have h1 : π < 3.15 := Real.pi_lt_d2
    have h2 : 0 < π := Real.pi_pos
    rw [hx]
    rw [div_le_iff₀ (by norm_num : (0:ℝ) < 180)]
    nlinarith
  have hv1 : 0 < Real.arsinh (Real.tan x) :=
    arsinh_tan_pos hxpos (by linarith [Real.pi_gt_three])
  have hv2 : Real.arsinh (Real.tan x) < π := arsinh_tan_lt_pi (le_of_lt hxpos) hx8
  have hfrac1 : 0 < Real.arsinh (Real.tan x) / π := div_pos hv1 Real.pi_pos
  have hfrac2 : Real.arsinh (Real.tan x) / π < 1 := (div_lt_one Real.pi_pos).mpr hv2
  rw [show (1 - Real.arsinh (Real.tan x) / π) / 2 * 2 ^ (0 : ℕ) =
      (1 - Real.arsinh (Real.tan x) / π) / 2 by ring]
  exact float_int_eq_of le_rfl (by push_cast; linarith) (by push_cast; linarith)

theorem c10_corner_lo :
    lat_lon_to_tile (45 - 1 / 1000 / 111) (90 - 1 / 1000 / 70) 0 = (0, 0) := by
  unfold lat_lon_to_tile
  dsimp only
  rw [Prod.mk.injEq]
  constructor
  · rw [show ((90 : ℝ) - 1 / 1000 / 70 + 180) / 360 * 2 ^ (0 : ℕ) =
        (270 - 1 / 70000) / 360 by norm_num]
    exact float_int_eq_of le_rfl (by norm_num) (by norm_num)
  · rw [show (45 : ℝ) - 1 / 1000 / 111 = 45 + (-(1 / 111000)) by norm_num]
    exact c10_y_eval (by norm_num) (by norm_num)

theorem c10_corner_hi :
    lat_lon_to_tile (45 + 1 / 1000 / 111) (90 + 1 / 1000 / 70) 0 = (0, 0) := by
  unfold lat_lon_to_tile
  dsimp only
  rw [Prod.mk.injEq]
  constructor
  · rw [show ((90 : ℝ) + 1 / 1000 / 70 + 180) / 360 * 2 ^ (0 : ℕ) =
        (270 + 1 / 70000) / 360 by norm_num]
    exact float_int_eq_of le_rfl (by norm_num) (by norm_num)
  · rw [show (45 : ℝ) + 1 / 1000 / 111 = 45 + 1 / 111000 by norm_num]
    exact c10_y_eval (by norm_num) (by norm_num)

theorem c10_center_tile : lat_lon_to_tile 45 90 0 = (0, 0) := by
  unfold lat_lon_to_tile
  dsimp only
  rw [Prod.mk.injEq]
  constructor
  · rw [show ((90 : ℝ) + 180) / 360 * 2 ^ (0 : ℕ) = 3 / 4 by norm_num]
    exact float_int_eq_of le_rfl (by norm_num) (by norm_num)
  · rw [show (45 : ℝ) = 45 + 0 by norm_num]
    exact c10_y_eval (by norm_num) (by norm_num)

end AbingdonScript

namespace MappingService

theorem incr_total (s : Stats) (st : Status) : (s.incr st).total = s.total + 1 := by
  cases st <;> simp [Stats.incr, Stats.total] <;> omega

/-- Total number of tiles processed by a job: each layer runs every zoom of
the range over the tile list of that zoom. -/
def totalTiles (layers : List String) (minZoom maxZoom : ℕ)
    (tilesFor : ℕ → List (ℤ × ℤ)) : ℕ :=
  layers.length * ((zoomRange minZoom maxZoom).map fun z => (tilesFor z).length).sum

theorem runPass_counts (delays : TileKey → ℚ) (https : TileKey → HttpResult)
    (layer : String) (zoom : ℕ) (total : ℕ) :
    ∀ (tiles : List (ℤ × ℤ)) (store : Store) (stats : Stats) (idx : ℕ),
      (runPass delays https layer zoom total tiles store stats idx).events.countP
          Event.isProgress = tiles.length ∧
      (runPass delays https layer zoom total tiles store stats idx).events.countP
          Event.isLayerComplete = 0 ∧
      (runPass delays https layer zoom total tiles store stats idx).events.countP
          Event.isComplete = 0 := by
  intro tiles
  induction tiles with
  | nil => intro store stats idx; simp [runPass]
  | cons hd rest ih =>
      obtain ⟨x, y⟩ := hd
      intro store stats idx
      obtain ⟨h1, h2, h3⟩ := ih
        (download_single_tile store layer zoom x y
          (delays ⟨layer, zoom, x, y⟩) (https ⟨layer, zoom, x, y⟩)).store
        (stats.incr (download_single_tile store layer zoom x y
          (delays ⟨layer, zoom, x, y⟩) (https ⟨layer, zoom, x, y⟩)).status)
        (idx + 1)
      simp only [runPass, List.countP_cons, h1, h2, h3, Event.isProgress,
        Event.isLayerComplete, Event.isComplete, List.length_cons]
      simp

theorem runZooms_counts (delays : TileKey → ℚ) (https : TileKey → HttpResult)
    (tilesFor : ℕ → List (ℤ × ℤ)) (layer : String) :
    ∀ (zooms : List ℕ) (store : Store),
      (runZooms delays https tilesFor layer zooms store).events.countP
          Event.isProgress = (zooms.map fun z => (tilesFor z).length).sum ∧
      (runZooms delays https tilesFor layer zooms store).events.countP
          Event.isLayerComplete = zooms.length ∧
      (runZooms delays https tilesFor layer zooms store).events.countP
          Event.isComplete = 0 := by
  intro zooms
  induction zooms with
  | nil => intro store; simp [runZooms]
  | cons z rest ih =>
      intro store
      obtain ⟨p1, p2, p3⟩ := runPass_counts delays https layer z
        (tilesFor z).length (tilesFor z) store Stats.init 0
      obtain ⟨r1, r2, r3⟩ := ih
        (runPass delays https layer z (tilesFor z).length (tilesFor z) store
          Stats.init 0).store
      simp only [runZooms, List.countP_append, List.countP_cons, p1, p2, p3,
        r1, r2, r3, List.countP_nil, Event.isProgress, Event.isLayerComplete,
        Event.isComplete, List.map_cons, List.sum_cons, List.length_cons]
      refine ⟨by simp, by simp; omega, by simp⟩

theorem runLayers_counts (delays : TileKey → ℚ) (https : TileKey → HttpResult)
    (tilesFor : ℕ → List (ℤ × ℤ)) (zooms : List ℕ) :
    ∀ (layers : List String) (store : Store),
      (runLayers delays https tilesFor zooms layers store).events.countP
          Event.isProgress =
        layers.length * (zooms.map fun z => (tilesFor z).length).sum ∧
      (runLayers delays https tilesFor zooms layers store).events.countP
          Event.isLayerComplete = layers.length * zooms.length ∧
      (runLayers delays https tilesFor zooms layers store).events.countP
          Event.isComplete = 0 := by
  intro layers
  induction layers with
  | nil => intro store; simp [runLayers]
  | cons layer rest ih =>
      intro store
      obtain ⟨a1, a2, a3⟩ := runZooms_counts delays https tilesFor layer zooms store
      obtain ⟨r1, r2, r3⟩ := ih
        (runZooms delays https tilesFor layer zooms store).store
      simp only [runLayers, List.countP_append, a1, a2, a3, r1, r2, r3,
        List.length_cons]
      refine ⟨by ring, by ring, by trivial⟩

theorem stream_counts (layers : List String) (minZoom maxZoom : ℕ)
    (tilesFor : ℕ → List (ℤ × ℤ)) (store : Store)
    (delays : TileKey → ℚ) (https : TileKey → HttpResult) :
    (stream_tile_download layers minZoom maxZoom tilesFor store delays https).events.countP
        Event.isProgress = totalTiles layers minZoom maxZoom tilesFor ∧
    (stream_tile_download layers minZoom maxZoom tilesFor store delays https).events.countP
        Event.isLayerComplete = layers.length * (zoomRange minZoom maxZoom).length ∧
    (stream_tile_download layers minZoom maxZoom tilesFor store delays https).events.countP
        Event.isComplete = 1 ∧
    (stream_tile_download layers minZoom maxZoom tilesFor store delays https).events.getLast?
      = some Event.complete := by
  obtain ⟨h1, h2, h3⟩ := runLayers_counts delays https tilesFor
    (zoomRange minZoom maxZoom) layers store
  unfold stream_tile_download totalTiles
  refine ⟨?_, ?_, ?_, ?_⟩
  · simp only [List.countP_append, h1, List.countP_cons, List.countP_nil,
      Event.isProgress]
    simp
  · simp only [List.countP_append, h2, List.countP_cons, List.countP_nil,
      Event.isLayerComplete]
    simp [List.length_map]
  · simp only [List.countP_append, h3, List.countP_cons, List.countP_nil,
      Event.isComplete]
    simp
  · exact List.getLast?_concat _

end MappingService

namespace MappingService

theorem runPass_progress_inv (delays : TileKey → ℚ) (https : TileKey → HttpResult)
    (layer : String) (zoom : ℕ) (total : ℕ) :
    ∀ (tiles : List (ℤ × ℤ)) (store : Store) (stats : Stats) (idx : ℕ),
      stats.total = idx → idx + tiles.length ≤ total →
      ∀ (l0 : String) (z0 : ℕ) (x0 y0 : ℤ) (st : Status) (c t : ℕ) (s0 : Stats),
        Event.progress l0 z0 x0 y0 st c t s0 ∈
          (runPass delays https layer zoom total tiles store stats idx).events →
        s0.total = c ∧ 1 ≤ c ∧ c ≤ t := by
  intro tiles
  induction tiles with
  | nil =>
      intro store stats idx _ _ l0 z0 x0 y0 st c t s0 hmem
      simp [runPass] at hmem
  | cons hd rest ih =>
      obtain ⟨x, y⟩ := hd
      intro store stats idx htot hlen l0 z0 x0 y0 st c t s0 hmem
      simp only [runPass, List.mem_cons] at hmem
      rcases hmem with hEq | hTail
      · have h1 : s0 = stats.incr (download_single_tile store layer zoom x y
            (delays ⟨layer, zoom, x, y⟩) (https ⟨layer, zoom, x, y⟩)).status ∧
            c = idx + 1 ∧ t = total := by
          cases hEq
          exact ⟨rfl, rfl, rfl⟩
        obtain ⟨rfl, rfl, rfl⟩ := h1
        rw [incr_total, htot]
        simp only [List.length_cons] at hlen
        omega
      · exact ih _ _ (idx + 1) (by rw [incr_total, htot])
          (by simp only [List.length_cons] at hlen; omega) l0 z0 x0 y0 st c t s0 hTail

theorem runZooms_progress_inv (delays : TileKey → ℚ) (https : TileKey → HttpResult)
    (tilesFor : ℕ → List (ℤ × ℤ)) (layer : String) :
    ∀ (zooms : List ℕ) (store : Store)
      (l0 : String) (z0 : ℕ) (x0 y0 : ℤ) (st : Status) (c t : ℕ) (s0 : Stats),
      Event.progress l0 z0 x0 y0 st c t s0 ∈
        (runZooms delays https tilesFor layer zooms store).events →
      s0.total = c ∧ 1 ≤ c ∧ c ≤ t := by
  intro zooms
  induction zooms with
  | nil =>
      intro store l0 z0 x0 y0 st c t s0 hmem
      simp [runZooms] at hmem
  | cons z rest ih =>
      intro store l0 z0 x0 y0 st c t s0 hmem
      simp only [runZooms, List.append_assoc, List.mem_append, List.mem_cons,
        List.not_mem_nil, or_false] at hmem
      rcases hmem with hPass | hEq | hTail
      · exact runPass_progress_inv delays https layer z (tilesFor z).length
          (tilesFor z) store Stats.init 0 rfl (by simp) l0 z0 x0 y0 st c t s0 hPass
      · simp at hEq
      · exact ih _ l0 z0 x0 y0 st c t s0 hTail

theorem runLayers_progress_inv (delays : TileKey → ℚ) (https : TileKey → HttpResult)
    (tilesFor : ℕ → List (ℤ × ℤ)) (zooms : List ℕ) :
    ∀ (layers : List String) (store : Store)
      (l0 : String) (z0 : ℕ) (x0 y0 : ℤ) (st : Status) (c t : ℕ) (s0 : Stats),
      Event.progress l0 z0 x0 y0 st c t s0 ∈
        (runLayers delays https tilesFor zooms layers store).events →
      s0.total = c ∧ 1 ≤ c ∧ c ≤ t := by
  intro layers
  induction layers with
  | nil =>
      intro store l0 z0 x0 y0 st c t s0 hmem
      simp [runLayers] at hmem
  | cons layer rest ih =>
      intro store l0 z0 x0 y0 st c t s0 hmem
      simp only [runLayers, List.mem_append] at hmem
      rcases hmem with hA | hB
      · exact runZooms_progress_inv delays https tilesFor layer zooms store
          l0 z0 x0 y0 st c t s0 hA
      · exact ih _ l0 z0 x0 y0 st c t s0 hB

/-- A tile key whose stored content is a good (non-blocked-size) file. -/
def stored_good (s : Store) (k : TileKey) : Prop :=
  ∃ b, s k = some b ∧ b.length ≠ BLOCKED_TILE_SIZE

theorem download_single_tile_persist {store : Store} {layer : String} {zoom : ℕ}
    {x y : ℤ} {delay : ℚ} {http : HttpResult} {k0 : TileKey} {b : List ℕ}
    (h : store k0 = some b) :
    (download_single_tile store layer zoom x y delay http).store k0 = some b := by
  unfold download_single_tile
  dsimp only
  cases hst : store ⟨layer, zoom, x, y⟩ with
  | some content =>
      by_cases hb : content.length = BLOCKED_TILE_SIZE <;> simp [hb, h]
  | none =>
      have hk : k0 ≠ (⟨layer, zoom, x, y⟩ : TileKey) := by
        intro hEq; rw [hEq, hst] at h; exact Option.noConfusion h
      by_cases hl : layer = "osm" ∨ layer = "satellite"
      · simp only [if_pos hl]
        cases http with
        | resp st body =>
            by_cases h200 : st = 200
            · by_cases hlen : body.length = BLOCKED_TILE_SIZE <;>
                simp [h200, hlen, Store.insert, hk, h]
            · simp [h200, h]
        | timeout => exact h
        | error => exact h
      · simp only [if_neg hl]
        exact h

theorem download_single_tile_skip {store : Store} {layer : String} {zoom : ℕ}
    {x y : ℤ} {delay : ℚ} {http : HttpResult} {b : List ℕ}
    (h : store ⟨layer, zoom, x, y⟩ = some b) (hb : b.length ≠ BLOCKED_TILE_SIZE) :
    download_single_tile store layer zoom x y delay http =
      ⟨.skipped, store, []⟩ := by
  unfold download_single_tile
  dsimp only
  rw [h]
  simp [hb]

theorem download_single_tile_success_good {store : Store} {layer : String}
    {zoom : ℕ} {x y : ℤ} {delay : ℚ} {http : HttpResult}
    (h : (download_single_tile store layer zoom x y delay http).status = .success) :
    stored_good (download_single_tile store layer zoom x y delay http).store
      ⟨layer, zoom, x, y⟩ := by
  by_cases hl : layer = "osm" ∨ layer = "satellite"
  case neg =>
    cases hst : store ⟨layer, zoom, x, y⟩ with
    | some content =>
        by_cases hb : content.length = BLOCKED_TILE_SIZE <;>
          simp [download_single_tile, hst, hb, hl] at h
    | none => simp [download_single_tile, hst, hl] at h
  case pos =>
    cases hst : store ⟨layer, zoom, x, y⟩ with
    | some content =>
        by_cases hb : content.length = BLOCKED_TILE_SIZE <;>
          simp [download_single_tile, hst, hb] at h
    | none =>
        cases http with
        | resp st body =>
            by_cases h200 : st = 200
            · by_cases hlen : body.length = BLOCKED_TILE_SIZE
              · simp [download_single_tile, hst, hl, h200, hlen] at h
              · refine ⟨body, ?_, hlen⟩
                simp [download_single_tile, hst, hl, h200, hlen, Store.insert]
            · simp [download_single_tile, hst, hl, h200] at h
        | timeout => simp [download_single_tile, hst, hl] at h
        | error => simp [download_single_tile, hst, hl] at h

end MappingService

namespace MappingService

theorem runPass_persist (delays : TileKey → ℚ) (https : TileKey → HttpResult)
    (layer : String) (zoom : ℕ) (total : ℕ) :
    ∀ (tiles : List (ℤ × ℤ)) (store : Store) (stats : Stats) (idx : ℕ)
      (k0 : TileKey) (b : List ℕ), store k0 = some b →
      (runPass delays https layer zoom total tiles store stats idx).store k0 = some b := by
  intro tiles
  induction tiles with
  | nil => intro store stats idx k0 b h; simpa [runPass] using h
  | cons hd rest ih =>
      obtain ⟨x, y⟩ := hd
      intro store stats idx k0 b h
      simp only [runPass]
      exact ih _ _ _ k0 b (download_single_tile_persist h)

theorem stored_good_persist_runPass {delays : TileKey → ℚ} {https : TileKey → HttpResult}
    {layer : String} {zoom : ℕ} {total : ℕ} {tiles : List (ℤ × ℤ)} {store : Store}
    {stats : Stats} {idx : ℕ} {k0 : TileKey} (h : stored_good store k0) :
    stored_good (runPass delays https layer zoom total tiles store stats idx).store k0 := by
  obtain ⟨b, hb, hlen⟩ := h
  exact ⟨b, runPass_persist delays https layer zoom total tiles store stats idx k0 b hb, hlen⟩

theorem runPass_success_good (delays : TileKey → ℚ) (https : TileKey → HttpResult)
    (layer : String) (zoom : ℕ) (total : ℕ) :
    ∀ (tiles : List (ℤ × ℤ)) (store : Store) (stats : Stats) (idx : ℕ),
      (∀ e ∈ (runPass delays https layer zoom total tiles store stats idx).events,
        e.isProgress = true → e.progressStatus = some .success) →
      ∀ p ∈ tiles, stored_good
        (runPass delays https layer zoom total tiles store stats idx).store
        ⟨layer, zoom, p.1, p.2⟩ := by
  intro tiles
  induction tiles with
  | nil => intro store stats idx _ p hp; cases hp
  | cons hd rest ih =>
      obtain ⟨x, y⟩ := hd
      intro store stats idx hall p hp
      have hhead : (download_single_tile store layer zoom x y
          (delays ⟨layer, zoom, x, y⟩) (https ⟨layer, zoom, x, y⟩)).status = .success := by
        have := hall (Event.progress layer zoom x y
          (download_single_tile store layer zoom x y
            (delays ⟨layer, zoom, x, y⟩) (https ⟨layer, zoom, x, y⟩)).status
          (idx + 1) total
          (stats.incr (download_single_tile store layer zoom x y
            (delays ⟨layer, zoom, x, y⟩) (https ⟨layer, zoom, x, y⟩)).status))
          (by simp [runPass]) rfl
        simpa [Event.progressStatus] using this
      have htail : ∀ e ∈ (runPass delays https layer zoom total rest
          (download_single_tile store layer zoom x y
            (delays ⟨layer, zoom, x, y⟩) (https ⟨layer, zoom, x, y⟩)).store
          (stats.incr (download_single_tile store layer zoom x y
            (delays ⟨layer, zoom, x, y⟩) (https ⟨layer, zoom, x, y⟩)).status)
          (idx + 1)).events,
          e.isProgress = true → e.progressStatus = some .success := by
        intro e he
        exact hall e (by simp [runPass, he])
      rcases List.mem_cons.mp hp with rfl | hmem
      · simp only [runPass]
        exact stored_good_persist_runPass
          (download_single_tile_success_good hhead)
      · simpa [runPass] using ih _ _ (idx + 1) htail p hmem

theorem runPass_inert (delays : TileKey → ℚ) (https : TileKey → HttpResult)
    (layer : String) (zoom : ℕ) (total : ℕ) :
    ∀ (tiles : List (ℤ × ℤ)) (store : Store) (stats : Stats) (idx : ℕ),
      (∀ p ∈ tiles, stored_good store ⟨layer, zoom, p.1, p.2⟩) →
      (runPass delays https layer zoom total tiles store stats idx).store = store ∧
      (runPass delays https layer zoom total tiles store stats idx).acts = [] ∧
      (∀ e ∈ (runPass delays https layer zoom total tiles store stats idx).events,
        e.isProgress = true → e.progressStatus = some .skipped) := by
  intro tiles
  induction tiles with
  | nil =>
      intro store stats idx _
      refine ⟨rfl, rfl, ?_⟩
      intro e he
      simp [runPass] at he
  | cons hd rest ih =>
      obtain ⟨x, y⟩ := hd
      intro store stats idx hgood
      obtain ⟨b, hb, hlen⟩ := hgood (x, y) (List.mem_cons_self _ _)
      have hskip : download_single_tile store layer zoom x y
          (delays ⟨layer, zoom, x, y⟩) (https ⟨layer, zoom, x, y⟩) =
          ⟨.skipped, store, []⟩ := download_single_tile_skip hb hlen
      obtain ⟨ihs, iha, ihe⟩ := ih store (stats.incr .skipped) (idx + 1)
        (fun p hp => hgood p (List.mem_cons_of_mem _ hp))
      refine ⟨?_, ?_, ?_⟩
      · simp only [runPass, hskip]
        exact ihs
      · simp only [runPass, hskip]
        simpa using iha
      · intro e he
        simp only [runPass, hskip, List.mem_cons] at he
        rcases he with rfl | hmem
        · intro _; rfl
        · exact ihe e hmem

end MappingService

namespace MappingService

theorem runZooms_persist (delays : TileKey → ℚ) (https : TileKey → HttpResult)
    (tilesFor : ℕ → List (ℤ × ℤ)) (layer : String) :
    ∀ (zooms : List ℕ) (store : Store) (k0 : TileKey) (b : List ℕ),
      store k0 = some b →
      (runZooms delays https tilesFor layer zooms store).store k0 = some b := by
  intro zooms
  induction zooms with
  | nil => intro store k0 b h; simpa [runZooms] using h
  | cons z rest ih =>
      intro store k0 b h
      simp only [runZooms]
      exact ih _ k0 b (runPass_persist delays https layer z (tilesFor z).length
        (tilesFor z) store Stats.init 0 k0 b h)

theorem runLayers_persist (delays : TileKey → ℚ) (https : TileKey → HttpResult)
    (tilesFor : ℕ → List (ℤ × ℤ)) (zooms : List ℕ) :
    ∀ (layers : List String) (store : Store) (k0 : TileKey) (b : List ℕ),
      store k0 = some b →
      (runLayers delays https tilesFor zooms layers store).store k0 = some b := by
  intro layers
  induction layers with
  | nil => intro store k0 b h; simpa [runLayers] using h
  | cons layer rest ih =>
      intro store k0 b h
      simp only [runLayers]
      exact ih _ k0 b (runZooms_persist delays https tilesFor layer zooms store k0 b h)

theorem runZooms_success_good (delays : TileKey → ℚ) (https : TileKey → HttpResult)
    (tilesFor : ℕ → List (ℤ × ℤ)) (layer : String) :
    ∀ (zooms : List ℕ) (store : Store),
      (∀ e ∈ (runZooms delays https tilesFor layer zooms store).events,
        e.isProgress = true → e.progressStatus = some .success) →
      ∀ z ∈ zooms, ∀ p ∈ tilesFor z, stored_good
        (runZooms delays https tilesFor layer zooms store).store
        ⟨layer, z, p.1, p.2⟩ := by
  intro zooms
  induction zooms with
  | nil => intro store _ z hz; cases hz
  | cons z0 rest ih =>
      intro store hall z hz p hp
      have hpassall : ∀ e ∈ (runPass delays https layer z0 (tilesFor z0).length
          (tilesFor z0) store Stats.init 0).events,
          e.isProgress = true → e.progressStatus = some .success := by
        intro e he
        exact hall e (by simp [runZooms, he])
      have hrestall : ∀ e ∈ (runZooms delays https tilesFor layer rest
          (runPass delays https layer z0 (tilesFor z0).length (tilesFor z0)
            store Stats.init 0).store).events,
          e.isProgress = true → e.progressStatus = some .success := by
        intro e he
        exact hall e (by simp [runZooms, he])
      rcases List.mem_cons.mp hz with rfl | hzr
      · have hgood := runPass_success_good delays https layer z (tilesFor z).length
          (tilesFor z) store Stats.init 0 hpassall p hp
        obtain ⟨b, hb, hlen⟩ := hgood
        refine ⟨b, ?_, hlen⟩
        simp only [runZooms]
        exact runZooms_persist delays https tilesFor layer rest _ _ b hb
      · simpa [runZooms] using ih _ hrestall z hzr p hp

theorem runLayers_success_good (delays : TileKey → ℚ) (https : TileKey → HttpResult)
    (tilesFor : ℕ → List (ℤ × ℤ)) (zooms : List ℕ) :
    ∀ (layers : List String) (store : Store),
      (∀ e ∈ (runLayers delays https tilesFor zooms layers store).events,
        e.isProgress = true → e.progressStatus = some .success) →
      ∀ layer ∈ layers, ∀ z ∈ zooms, ∀ p ∈ tilesFor z, stored_good
        (runLayers delays https tilesFor zooms layers store).store
        ⟨layer, z, p.1, p.2⟩ := by
  intro layers
  induction layers with
  | nil => intro store _ layer hl; cases hl
  | cons layer0 rest ih =>
      intro store hall layer hl z hz p hp
      have hzall : ∀ e ∈ (runZooms delays https tilesFor layer0 zooms store).events,
          e.isProgress = true → e.progressStatus = some .success := by
        intro e he
        exact hall e (by simp [runLayers, he])
      have hrestall : ∀ e ∈ (runLayers delays https tilesFor zooms rest
          (runZooms delays https tilesFor layer0 zooms store).store).events,
          e.isProgress = true → e.progressStatus = some .success := by
        intro e he
        exact hall e (by simp [runLayers, he])
      rcases List.mem_cons.mp hl with rfl | hlr
      · have hgood := runZooms_success_good delays https tilesFor layer zooms
          store hzall z hz p hp
        obtain ⟨b, hb, hlen⟩ := hgood
        refine ⟨b, ?_, hlen⟩
        simp only [runLayers]
        exact runLayers_persist delays https tilesFor zooms rest _ _ b hb
      · simpa [runLayers] using ih _ hrestall layer hlr z hz p hp

theorem runZooms_inert (delays : TileKey → ℚ) (https : TileKey → HttpResult)
    (tilesFor : ℕ → List (ℤ × ℤ)) (layer : String) :
    ∀ (zooms : List ℕ) (store : Store),
      (∀ z ∈ zooms, ∀ p ∈ tilesFor z, stored_good store ⟨layer, z, p.1, p.2⟩) →
      (runZooms delays https tilesFor layer zooms store).store = store ∧
      (runZooms delays https tilesFor layer zooms store).acts = [] ∧
      (∀ e ∈ (runZooms delays https tilesFor layer zooms store).events,
        e.isProgress = true → e.progressStatus = some .skipped) := by
  intro zooms
  induction zooms with
  | nil =>
      intro store _
      refine ⟨rfl, rfl, ?_⟩
      intro e he
      simp [runZooms] at he
  | cons z rest ih =>
      intro store hgood
      obtain ⟨ps, pa, pe⟩ := runPass_inert delays https layer z (tilesFor z).length
        (tilesFor z) store Stats.init 0
        (fun p hp => hgood z (List.mem_cons_self _ _) p hp)
      obtain ⟨ihs, iha, ihe⟩ := ih ((runPass delays https layer z (tilesFor z).length
        (tilesFor z) store Stats.init 0).store)
        (by rw [ps]; exact fun z0 hz0 p hp => hgood z0 (List.mem_cons_of_mem _ hz0) p hp)
      refine ⟨?_, ?_, ?_⟩
      · simp only [runZooms]
        rw [ihs, ps]
      · simp only [runZooms]
        rw [iha, pa]
        simp
      · intro e he
        simp only [runZooms, List.mem_append, List.mem_singleton] at he
        rcases he with (hPass | hEq) | hTail
        · exact pe e hPass
        · intro hip
          rw [hEq] at hip
          simp [Event.isProgress] at hip
        · exact ihe e hTail

theorem runLayers_inert (delays : TileKey → ℚ) (https : TileKey → HttpResult)
    (tilesFor : ℕ → List (ℤ × ℤ)) (zooms : List ℕ) :
    ∀ (layers : List String) (store : Store),
      (∀ layer ∈ layers, ∀ z ∈ zooms, ∀ p ∈ tilesFor z,
        stored_good store ⟨layer, z, p.1, p.2⟩) →
      (runLayers delays https tilesFor zooms layers store).store = store ∧
      (runLayers delays https tilesFor zooms layers store).acts = [] ∧
      (∀ e ∈ (runLayers delays https tilesFor zooms layers store).events,
        e.isProgress = true → e.progressStatus = some .skipped) := by
  intro layers
  induction layers with
  | nil =>
      intro store _
      refine ⟨rfl, rfl, ?_⟩
      intro e he
      simp [runLayers] at he
  | cons layer rest ih =>
      intro store hgood
      obtain ⟨zs, za, ze⟩ := runZooms_inert delays https tilesFor layer zooms store
        (fun z hz p hp => hgood layer (List.mem_cons_self _ _) z hz p hp)
      obtain ⟨ihs, iha, ihe⟩ := ih ((runZooms delays https tilesFor layer zooms store).store)
        (by rw [zs]; exact fun l0 hl0 z hz p hp =>
          hgood l0 (List.mem_cons_of_mem _ hl0) z hz p hp)
      refine ⟨?_, ?_, ?_⟩
      · simp only [runLayers]
        rw [ihs, zs]
      · simp only [runLayers]
        rw [iha, za]
        simp
      · intro e he
        simp only [runLayers, List.mem_append] at he
        rcases he with hA | hB
        · exact ze e hA
        · exact ihe e hB

end MappingService

/-- Every HTTP request in the trace is immediately preceded by a sleep whose
drawn duration lies in [mn, mx]: the delay is taken before the request, so at
least mn elapses between any two consecutive requests. -/
def requestsSleepGuarded (mn mx : ℚ) (l : List Act) : Prop :=
  ∀ (i : ℕ) (layer : String) (zoom : ℕ) (x y : ℤ),
    l[i]? = some (Act.request layer zoom x y) →
    ∃ d, 1 ≤ i ∧ l[i - 1]? = some (Act.sleep d) ∧ mn ≤ d ∧ d ≤ mx

theorem requestsSleepGuarded_nil {mn mx : ℚ} : requestsSleepGuarded mn mx [] := by
  intro i layer zoom x y h
  simp at h

theorem requestsSleepGuarded_sleep {mn mx d : ℚ} :
    requestsSleepGuarded mn mx [Act.sleep d] := by
  intro i layer zoom x y h
  match i with
  | 0 => simp at h
  | n + 1 => simp at h

theorem requestsSleepGuarded_pair {mn mx d : ℚ} {layer : String} {zoom : ℕ}
    {x y : ℤ} (h1 : mn ≤ d) (h2 : d ≤ mx) :
    requestsSleepGuarded mn mx [Act.sleep d, Act.request layer zoom x y] := by
  intro i l0 z0 x0 y0 h
  match i with
  | 0 => simp at h
  | 1 => exact ⟨d, le_refl 1, by simp, h1, h2⟩
  | n + 2 => simp at h

theorem requestsSleepGuarded_append {mn mx : ℚ} {l1 l2 : List Act}
    (h1 : requestsSleepGuarded mn mx l1) (h2 : requestsSleepGuarded mn mx l2) :
    requestsSleepGuarded mn mx (l1 ++ l2) := by
  intro i layer zoom x y h
  by_cases hi : i < l1.length
  · rw [List.getElem?_append_left hi] at h
    obtain ⟨d, hge, hprev, hd1, hd2⟩ := h1 i layer zoom x y h
    refine ⟨d, hge, ?_, hd1, hd2⟩
    rw [List.getElem?_append_left (by omega)]
    exact hprev
  · push_neg at hi
    rw [List.getElem?_append_right hi] at h
    obtain ⟨d, hge, hprev, hd1, hd2⟩ := h2 (i - l1.length) layer zoom x y h
    refine ⟨d, by omega, ?_, hd1, hd2⟩
    rw [List.getElem?_append_right (by omega)]
    rw [show i - 1 - l1.length = i - l1.length - 1 by omega]
    exact hprev

namespace MappingService

theorem download_single_tile_guarded {mn mx : ℚ} {store : Store} {layer : String}
    {zoom : ℕ} {x y : ℤ} {delay : ℚ} {http : HttpResult}
    (h1 : mn ≤ delay) (h2 : delay ≤ mx) :
    requestsSleepGuarded mn mx
      (download_single_tile store layer zoom x y delay http).acts := by
  unfold download_single_tile
  dsimp only
  cases hst : store ⟨layer, zoom, x, y⟩ with
  | some content =>
      by_cases hb : content.length = BLOCKED_TILE_SIZE <;>
        simp [hb, requestsSleepGuarded_nil]
  | none =>
      by_cases hl : layer = "osm" ∨ layer = "satellite"
      · simp only [if_pos hl]
        cases http with
        | resp st body =>
            by_cases h200 : st = 200
            · by_cases hlen : body.length = BLOCKED_TILE_SIZE <;>
                simp [h200, hlen, requestsSleepGuarded_pair h1 h2]
            · simp [h200, requestsSleepGuarded_pair h1 h2]
        | timeout => exact requestsSleepGuarded_pair h1 h2
        | error => exact requestsSleepGuarded_pair h1 h2
      · simp only [if_neg hl]
        exact requestsSleepGuarded_sleep

theorem runPass_guarded {mn mx : ℚ} (delays : TileKey → ℚ) (https : TileKey → HttpResult)
    (layer : String) (zoom : ℕ) (total : ℕ)
    (hd : ∀ k, mn ≤ delays k ∧ delays k ≤ mx) :
    ∀ (tiles : List (ℤ × ℤ)) (store : Store) (stats : Stats) (idx : ℕ),
      requestsSleepGuarded mn mx
        (runPass delays https layer zoom total tiles store stats idx).acts := by
  intro tiles
  induction tiles with
  | nil => intro store stats idx; simpa [runPass] using requestsSleepGuarded_nil
  | cons hd0 rest ih =>
      obtain ⟨x, y⟩ := hd0
      intro store stats idx
      simp only [runPass]
      exact requestsSleepGuarded_append
        (download_single_tile_guarded (hd ⟨layer, zoom, x, y⟩).1
          (hd ⟨layer, zoom, x, y⟩).2)
        (ih _ _ _)

theorem runZooms_guarded {mn mx : ℚ} (delays : TileKey → ℚ) (https : TileKey → HttpResult)
    (tilesFor : ℕ → List (ℤ × ℤ)) (layer : String)
    (hd : ∀ k, mn ≤ delays k ∧ delays k ≤ mx) :
    ∀ (zooms : List ℕ) (store : Store),
      requestsSleepGuarded mn mx
        (runZooms delays https tilesFor layer zooms store).acts := by
  intro zooms
  induction zooms with
  | nil => intro store; simpa [runZooms] using requestsSleepGuarded_nil
  | cons z rest ih =>
      intro store
      simp only [runZooms]
      exact requestsSleepGuarded_append
        (runPass_guarded delays https layer z (tilesFor z).length hd _ _ _ _) (ih _)

theorem runLayers_guarded {mn mx : ℚ} (delays : TileKey → ℚ)
    (https : TileKey → HttpResult) (tilesFor : ℕ → List (ℤ × ℤ)) (zooms : List ℕ)
    (hd : ∀ k, mn ≤ delays k ∧ delays k ≤ mx) :
    ∀ (layers : List String) (store : Store),
      requestsSleepGuarded mn mx
        (runLayers delays https tilesFor zooms layers store).acts := by
  intro layers
  induction layers with
  | nil => intro store; simpa [runLayers] using requestsSleepGuarded_nil
  | cons layer rest ih =>
      intro store
      simp only [runLayers]
      exact requestsSleepGuarded_append
        (runZooms_guarded delays https tilesFor layer hd zooms store) (ih _)

end MappingService

section Claims

open Real

/-- C1 (counterexample): the mapping-service enumeration applies no distance
filter.  For the Circle (lat 0, lon 0, radius 3105 miles) at zoom 1 the
bounding box spans 45 degrees each way and tile (0, 0) is returned, yet the
great-circle distance from the center point of tile (0, 0) (computed by the
tile-center and Haversine formulas of the Abingdon script, in kilometres) to
the area center is 6371 * pi / 2, about 10008 km, far beyond the radius
(3105 miles = 4997 km at 1.609344 km per mile). -/
theorem C1_counterexample :
    ((0 : ℤ), (0 : ℤ)) ∈ MappingService.get_tiles_in_radius 0 0 3105 1 ∧
    AbingdonScript.tile_center_dist_km 0 0 0 0 1 = 6371 * (π / 2) ∧
    1.609344 * 3105 < 6371 * (π / 2) := by
  refine ⟨?_, AbingdonScript.tile_center_dist_00_zoom1, by nlinarith [Real.pi_gt_three]⟩
  rw [MappingService.mem_get_tiles_in_radius]
  obtain ⟨h1, h2, h3, h4⟩ := MappingService.bounds_eval
  rw [h1, h2, h3, h4]
  norm_num

/-- C1 (amended): only the Abingdon script filters by great-circle distance.
Its enumeration includes a tile (x, y) if and only if (x, y) lies in the
candidate bounding-box tile range and the Haversine distance from the tile
center point to the area center is at most the radius; the mapping-service
variant returns every bounding-box tile with no distance check, so corner
tiles whose centers lie farther than the radius are not excluded there. -/
theorem C1_theorem : ∀ (center_lat center_lon radius_km : ℝ) (zoom : ℕ) (x y : ℤ),
    (x, y) ∈ AbingdonScript.get_tiles_in_radius center_lat center_lon radius_km zoom ↔
      (AbingdonScript.x_min center_lat center_lon radius_km zoom ≤ x ∧
       x ≤ AbingdonScript.x_max center_lat center_lon radius_km zoom) ∧
      (AbingdonScript.y_min center_lat center_lon radius_km zoom ≤ y ∧
       y ≤ AbingdonScript.y_max center_lat center_lon radius_km zoom) ∧
      AbingdonScript.tile_center_dist_km center_lat center_lon x y zoom ≤ radius_km :=
  fun _ _ _ _ _ _ => AbingdonScript.mem_tiles

/-- C10: for some Circle inputs the Haversine-filtered enumeration is empty.
At zoom 0 with center (45, 90) and radius 0.001 km, the only candidate tile
is (0, 0), whose center point (0, 0) lies 6371 * pi / 2 km away, so the zoom
level contributes no tiles even though the circle lies inside tile (0, 0)
(the tile containing the center). -/
theorem C10_theorem :
    AbingdonScript.get_tiles_in_radius 45 90 (1 / 1000) 0 = [] ∧
    AbingdonScript.lat_lon_to_tile 45 90 0 = (0, 0) := by
  constructor
  · rw [List.eq_nil_iff_forall_not_mem]
    intro p hp
    obtain ⟨x, y⟩ := p
    rw [AbingdonScript.mem_tiles] at hp
    obtain ⟨hx, hy, hd⟩ := hp
    have hxb : AbingdonScript.x_min 45 90 (1 / 1000) 0 = 0 ∧
        AbingdonScript.x_max 45 90 (1 / 1000) 0 = 0 ∧
        AbingdonScript.y_min 45 90 (1 / 1000) 0 = 0 ∧
        AbingdonScript.y_max 45 90 (1 / 1000) 0 = 0 := by
      refine ⟨?_, ?_, ?_, ?_⟩
      · unfold AbingdonScript.x_min
        rw [AbingdonScript.c10_corner_lo]
      · unfold AbingdonScript.x_max
        rw [AbingdonScript.c10_corner_hi]
      · unfold AbingdonScript.y_min
        rw [AbingdonScript.c10_corner_hi]
      · unfold AbingdonScript.y_max
        rw [AbingdonScript.c10_corner_lo]
    obtain ⟨hb1, hb2, hb3, hb4⟩ := hxb
    rw [hb1, hb2] at hx
    rw [hb3, hb4] at hy
    have hx0 : x = 0 := le_antisymm hx.2 hx.1
    have hy0 : y = 0 := le_antisymm hy.2 hy.1
    rw [hx0, hy0, AbingdonScript.tile_center_dist_00_zoom0] at hd
    nlinarith [Real.pi_gt_three, hd]
  · exact AbingdonScript.c10_center_tile

/-- C2 (counterexample): the tile save of main.py is not temp-file plus
rename.  For tile osm/13/0/0 with 100 content bytes the executed filesystem
operations contain no rename at all, and after the open (before the write) a
concurrent reader observes the final path as an existing zero-length file,
although the content has 100 bytes. -/
theorem C2_counterexample :
    (MappingService.save_tile_ops "osm" 13 0 0 100).countP
      MappingService.FsOp.isRename = 0 ∧
    some 0 ∈ MappingService.observations (fun _ => none)
      (MappingService.tile_path "osm" 13 0 0)
      (MappingService.save_tile_ops "osm" 13 0 0 100) ∧
    (100 : ℕ) ≠ 0 := by
  refine ⟨by rfl, ?_, by decide⟩
  simp [MappingService.observations, MappingService.save_tile_ops,
    MappingService.applyOp]

/-- C2 (amended): the tile bytes are written directly to the final path
{baseDir}/{layer}/{zoom}/{x}/{y}.png: the parent directories are created,
the final file is opened (truncating it to zero length) and the bytes are
written in place.  No temporary path and no rename are involved, and between
the open and the write a concurrent reader observes a zero-length file at
the final path. -/
theorem C2_theorem : ∀ (layer : String) (zoom : ℕ) (x y : ℤ) (n : ℕ),
    MappingService.save_tile_ops layer zoom x y n =
      [MappingService.FsOp.mkdirParents (MappingService.tile_path layer zoom x y),
       MappingService.FsOp.openTrunc (MappingService.tile_path layer zoom x y),
       MappingService.FsOp.writeBytes (MappingService.tile_path layer zoom x y) n] ∧
    (MappingService.save_tile_ops layer zoom x y n).countP
      MappingService.FsOp.isRename = 0 ∧
    MappingService.observations (fun _ => none)
      (MappingService.tile_path layer zoom x y)
      (MappingService.save_tile_ops layer zoom x y n) =
      [none, none, some 0, some n] := by
  intro layer zoom x y n
  refine ⟨rfl, by simp [MappingService.save_tile_ops, MappingService.FsOp.isRename], ?_⟩
  simp [MappingService.observations, MappingService.save_tile_ops,
    MappingService.applyOp]

end Claims

section Claims2

/-- C3: on an HTTP 200 response for a not-yet-stored tile, the outcome is
blocked exactly when the body length equals BLOCKED_TILE_SIZE (7412); a body
of 7411 or 7413 bytes yields success; and in the blocked case the
placeholder bytes are still persisted to the tile store.  This holds for
both main.py download_single_tile and download_uk_base.py download_tile. -/
theorem C3_theorem : ∀ (store : Store) (layer : String) (zoom : ℕ) (x y : ℤ)
    (d : ℚ) (rb : Bool) (body : List ℕ),
    store ⟨layer, zoom, x, y⟩ = none → (layer = "osm" ∨ layer = "satellite") →
    ((MappingService.download_single_tile store layer zoom x y d
        (.resp 200 body)).status = .blocked ↔
      body.length = MappingService.BLOCKED_TILE_SIZE) ∧
    (body.length = MappingService.BLOCKED_TILE_SIZE →
      (MappingService.download_single_tile store layer zoom x y d
        (.resp 200 body)).store ⟨layer, zoom, x, y⟩ = some body) ∧
    (body.length = MappingService.BLOCKED_TILE_SIZE - 1 ∨
     body.length = MappingService.BLOCKED_TILE_SIZE + 1 →
      (MappingService.download_single_tile store layer zoom x y d
        (.resp 200 body)).status = .success) ∧
    ((UkBase.download_tile store layer zoom x y rb d
        (.resp 200 body)).status = .blocked ↔
      body.length = UkBase.BLOCKED_TILE_SIZE) ∧
    (body.length = UkBase.BLOCKED_TILE_SIZE →
      (UkBase.download_tile store layer zoom x y rb d
        (.resp 200 body)).store ⟨layer, zoom, x, y⟩ = some body) ∧
    (body.length = UkBase.BLOCKED_TILE_SIZE - 1 ∨
     body.length = UkBase.BLOCKED_TILE_SIZE + 1 →
      (UkBase.download_tile store layer zoom x y rb d
        (.resp 200 body)).status = .success) := by
  intro store layer zoom x y d rb body hst hl
  by_cases hlen : body.length = 7412
  · refine ⟨?_, ?_, ?_, ?_, ?_, ?_⟩
    · simp [MappingService.download_single_tile, hst, hl, hlen,
        MappingService.BLOCKED_TILE_SIZE]
    · intro _
      simp [MappingService.download_single_tile, hst, hl, hlen,
        MappingService.BLOCKED_TILE_SIZE, Store.insert]
    · intro hc
      simp only [MappingService.BLOCKED_TILE_SIZE] at hc
      omega
    · simp [UkBase.download_tile, hst, hlen, UkBase.BLOCKED_TILE_SIZE]
    · intro _
      simp [UkBase.download_tile, hst, hlen, UkBase.BLOCKED_TILE_SIZE, Store.insert]
    · intro hc
      simp only [UkBase.BLOCKED_TILE_SIZE] at hc
      omega
  · refine ⟨?_, ?_, ?_, ?_, ?_, ?_⟩
    · simp [MappingService.download_single_tile, hst, hl, hlen,
        MappingService.BLOCKED_TILE_SIZE]
    · intro hc
      exact absurd hc hlen
    · intro _
      simp [MappingService.download_single_tile, hst, hl, hlen,
        MappingService.BLOCKED_TILE_SIZE]
    · simp [UkBase.download_tile, hst, hlen, UkBase.BLOCKED_TILE_SIZE]
    · intro hc
      exact absurd hc hlen
    · intro _
      simp [UkBase.download_tile, hst, hlen, UkBase.BLOCKED_TILE_SIZE]

/-- C3 (witness): concrete fetches against an empty store: a 7412-byte body
is blocked (and persisted by the UK script), 7411- and 7413-byte bodies are
successes. -/
theorem C3_witness :
    (MappingService.download_single_tile (fun _ => none) "osm" 13 0 0 1
      (.resp 200 (List.replicate 7412 0))).status = .blocked ∧
    (MappingService.download_single_tile (fun _ => none) "osm" 13 0 0 1
      (.resp 200 (List.replicate 7411 0))).status = .success ∧
    (MappingService.download_single_tile (fun _ => none) "osm" 13 0 0 1
      (.resp 200 (List.replicate 7413 0))).status = .success ∧
    (UkBase.download_tile (fun _ => none) "osm" 13 0 0 false 1
      (.resp 200 (List.replicate 7412 0))).store ⟨"osm", 13, 0, 0⟩ =
      some (List.replicate 7412 0) := by
  have hA := C3_theorem (fun _ => none) "osm" 13 0 0 1 false
    (List.replicate 7412 0) rfl (Or.inl rfl)
  have hB := C3_theorem (fun _ => none) "osm" 13 0 0 1 false
    (List.replicate 7411 0) rfl (Or.inl rfl)
  have hC := C3_theorem (fun _ => none) "osm" 13 0 0 1 false
    (List.replicate 7413 0) rfl (Or.inl rfl)
  refine ⟨?_, ?_, ?_, ?_⟩
  · exact hA.1.mpr (by rw [List.length_replicate]; rfl)
  · exact hB.2.2.1 (Or.inl (by rw [List.length_replicate]; rfl))
  · exact hC.2.2.1 (Or.inr (by rw [List.length_replicate]; rfl))
  · exact hA.2.2.2.2.1 (by rw [List.length_replicate]; rfl)

/-- C4: a stored good tile (size not equal to the blocked size) is never
fetched again, regardless of the redownload flag — the Abingdon script
returns True at once with no sleep and no request, and main.py returns
skipped with no actions; a stored blocked-size tile is fetched again exactly
when redownload is set: without the flag the Abingdon script returns False
with no actions (and main.py, which has no such flag, reports blocked with
no actions), while with the flag set exactly one request is issued. -/
theorem C4_theorem : ∀ (store : Store) (layer : String) (zoom : ℕ) (x y : ℤ)
    (rb : Bool) (d : ℚ) (http : HttpResult) (b : List ℕ),
    store ⟨layer, zoom, x, y⟩ = some b →
    (b.length ≠ AbingdonScript.BLOCKED_TILE_SIZE →
      AbingdonScript.download_tile store layer zoom x y rb d http =
        ⟨true, store, []⟩) ∧
    (b.length = AbingdonScript.BLOCKED_TILE_SIZE → rb = false →
      AbingdonScript.download_tile store layer zoom x y rb d http =
        ⟨false, store, []⟩) ∧
    (b.length = AbingdonScript.BLOCKED_TILE_SIZE → rb = true →
      countRequests (AbingdonScript.download_tile store layer zoom x y rb d http).acts
        = 1) ∧
    (b.length ≠ MappingService.BLOCKED_TILE_SIZE →
      MappingService.download_single_tile store layer zoom x y d http =
        ⟨.skipped, store, []⟩) ∧
    (b.length = MappingService.BLOCKED_TILE_SIZE →
      MappingService.download_single_tile store layer zoom x y d http =
        ⟨.blocked, store, []⟩) := by
  intro store layer zoom x y rb d http b hst
  refine ⟨?_, ?_, ?_, ?_, ?_⟩
  · intro hlen
    simp [AbingdonScript.download_tile, hst, hlen]
  · intro hlen hrb
    subst hrb
    simp [AbingdonScript.download_tile, hst, hlen]
  · intro hlen hrb
    subst hrb
    cases http with
    | resp st body =>
        by_cases h200 : st = 200
        · by_cases hb : body.length = AbingdonScript.BLOCKED_TILE_SIZE <;>
            simp [AbingdonScript.download_tile, hst, hlen, h200, hb,
              countRequests, Act.isRequest]
        · simp [AbingdonScript.download_tile, hst, hlen, h200,
            countRequests, Act.isRequest]
    | timeout =>
        simp [AbingdonScript.download_tile, hst, hlen, countRequests, Act.isRequest]
    | error =>
        simp [AbingdonScript.download_tile, hst, hlen, countRequests, Act.isRequest]
  · intro hlen
    exact MappingService.download_single_tile_skip hst hlen
  · intro hlen
    simp [MappingService.download_single_tile, hst, hlen]

/-- C4 (witness): with a good 1-byte tile on disk no fetch happens even with
the redownload flag set; with a 7412-byte blocked tile on disk, no request
without the flag and exactly one request with it. -/
theorem C4_witness :
    AbingdonScript.download_tile
      (fun k => if k = (⟨"osm", 13, 0, 0⟩ : TileKey) then some [7] else none)
      "osm" 13 0 0 true 4 (.resp 200 [0]) =
      ⟨true, fun k => if k = (⟨"osm", 13, 0, 0⟩ : TileKey) then some [7] else none, []⟩ ∧
    AbingdonScript.download_tile
      (fun k => if k = (⟨"osm", 13, 0, 0⟩ : TileKey) then
        some (List.replicate 7412 0) else none)
      "osm" 13 0 0 false 4 (.resp 200 [0]) =
      ⟨false, fun k => if k = (⟨"osm", 13, 0, 0⟩ : TileKey) then
        some (List.replicate 7412 0) else none, []⟩ ∧
    countRequests (AbingdonScript.download_tile
      (fun k => if k = (⟨"osm", 13, 0, 0⟩ : TileKey) then
        some (List.replicate 7412 0) else none)
      "osm" 13 0 0 true 4 (.resp 200 [0])).acts = 1 := by
  refine ⟨?_, ?_, ?_⟩
  · exact (C4_theorem _ "osm" 13 0 0 true 4 (.resp 200 [0]) [7]
      rfl).1 (by rw [List.length_singleton]; decide)
  · exact (C4_theorem _ "osm" 13 0 0 false 4 (.resp 200 [0])
      (List.replicate 7412 0) rfl).2.1
      (by rw [List.length_replicate]; rfl) rfl
  · exact (C4_theorem _ "osm" 13 0 0 true 4 (.resp 200 [0])
      (List.replicate 7412 0) rfl).2.2.1
      (by rw [List.length_replicate]; rfl) rfl

end Claims2

namespace AbingdonScript

theorem download_tile_guarded {mn mx : ℚ} {store : Store} {layer : String}
    {zoom : ℕ} {x y : ℤ} {rb : Bool} {delay : ℚ} {http : HttpResult}
    (h1 : mn ≤ delay) (h2 : delay ≤ mx) :
    requestsSleepGuarded mn mx
      (download_tile store layer zoom x y rb delay http).acts := by
  have hfetch : ∀ l : List Act,
      (l = [Act.sleep delay, Act.request layer zoom x y]) →
      requestsSleepGuarded mn mx l := by
    rintro l rfl
    exact requestsSleepGuarded_pair h1 h2
  unfold download_tile
  dsimp only
  cases hst : store ⟨layer, zoom, x, y⟩ with
  | some content =>
      by_cases hb : content.length = BLOCKED_TILE_SIZE ∧ rb = true
      · simp only [hb]
        cases http with
        | resp st body =>
            by_cases h200 : st = 200
            · by_cases hlen : body.length = BLOCKED_TILE_SIZE <;>
                simp [h200, hlen, hb, requestsSleepGuarded_pair h1 h2]
            · simp [h200, hb, requestsSleepGuarded_pair h1 h2]
        | timeout => simp [hb, requestsSleepGuarded_pair h1 h2]
        | error => simp [hb, requestsSleepGuarded_pair h1 h2]
      · by_cases hb2 : content.length = BLOCKED_TILE_SIZE
        · have hrb : rb = false := by
            cases rb with
            | true => exact absurd ⟨hb2, rfl⟩ hb
            | false => rfl
          simp [hb2, hrb, requestsSleepGuarded_nil]
        · simp [hb2, requestsSleepGuarded_nil]
  | none =>
      cases http with
      | resp st body =>
          by_cases h200 : st = 200
          · by_cases hlen : body.length = BLOCKED_TILE_SIZE <;>
              simp [h200, hlen, requestsSleepGuarded_pair h1 h2]
          · simp [h200, requestsSleepGuarded_pair h1 h2]
      | timeout => simp [requestsSleepGuarded_pair h1 h2]
      | error => simp [requestsSleepGuarded_pair h1 h2]

end AbingdonScript

section Claims3

/-- C5 (counterexample): the mapping-service default delay bounds are 1.0
and 2.0 seconds, not the 3.0 and 5.0 the claim states (those are the values
of the two standalone scripts). -/
theorem C5_counterexample :
    MappingService.MIN_DELAY_BETWEEN_REQUESTS = 1 ∧
    MappingService.MAX_DELAY_BETWEEN_REQUESTS = 2 ∧
    ¬(MappingService.MIN_DELAY_BETWEEN_REQUESTS = 3 ∧
      MappingService.MAX_DELAY_BETWEEN_REQUESTS = 5) := by
  refine ⟨rfl, rfl, ?_⟩
  rintro ⟨h, -⟩
  exact absurd h (by norm_num [MappingService.MIN_DELAY_BETWEEN_REQUESTS])

/-- C5 (amended): every fetch sleeps a drawn duration before issuing the
request — whenever the drawn delays lie in the configured interval, every
request action in the job trace is immediately preceded by a sleep action of
a duration in that interval, so at least the minimum delay elapses between
consecutive requests.  The interval is [3, 5] seconds in the two scripts and
[1, 2] seconds in the mapping service. -/
theorem C5_theorem :
    AbingdonScript.MIN_DELAY_BETWEEN_REQUESTS = 3 ∧
    AbingdonScript.MAX_DELAY_BETWEEN_REQUESTS = 5 ∧
    UkBase.MIN_DELAY_BETWEEN_REQUESTS = 3 ∧
    UkBase.MAX_DELAY_BETWEEN_REQUESTS = 5 ∧
    MappingService.MIN_DELAY_BETWEEN_REQUESTS = 1 ∧
    MappingService.MAX_DELAY_BETWEEN_REQUESTS = 2 ∧
    (∀ (store : Store) (layer : String) (zoom : ℕ) (x y : ℤ) (rb : Bool)
      (d : ℚ) (http : HttpResult),
      AbingdonScript.MIN_DELAY_BETWEEN_REQUESTS ≤ d →
      d ≤ AbingdonScript.MAX_DELAY_BETWEEN_REQUESTS →
      requestsSleepGuarded AbingdonScript.MIN_DELAY_BETWEEN_REQUESTS
        AbingdonScript.MAX_DELAY_BETWEEN_REQUESTS
        (AbingdonScript.download_tile store layer zoom x y rb d http).acts) ∧
    (∀ (layers : List String) (minZoom maxZoom : ℕ)
      (tilesFor : ℕ → List (ℤ × ℤ)) (store : Store)
      (delays : TileKey → ℚ) (https : TileKey → HttpResult),
      (∀ k, MappingService.MIN_DELAY_BETWEEN_REQUESTS ≤ delays k ∧
        delays k ≤ MappingService.MAX_DELAY_BETWEEN_REQUESTS) →
      requestsSleepGuarded MappingService.MIN_DELAY_BETWEEN_REQUESTS
        MappingService.MAX_DELAY_BETWEEN_REQUESTS
        (MappingService.stream_tile_download layers minZoom maxZoom tilesFor
          store delays https).acts) := by
  refine ⟨rfl, rfl, rfl, rfl, rfl, rfl, ?_, ?_⟩
  · intro store layer zoom x y rb d http hd1 hd2
    exact AbingdonScript.download_tile_guarded hd1 hd2
  · intro layers minZoom maxZoom tilesFor store delays https hd
    unfold MappingService.stream_tile_download
    exact MappingService.runLayers_guarded delays https tilesFor
      (MappingService.zoomRange minZoom maxZoom) hd layers store

/-- C5 (witness): concrete traces are sleep-guarded: one Abingdon fetch with
a drawn delay of 4 s, and a one-tile streaming job with a drawn delay of 1 s. -/
theorem C5_witness :
    requestsSleepGuarded AbingdonScript.MIN_DELAY_BETWEEN_REQUESTS
      AbingdonScript.MAX_DELAY_BETWEEN_REQUESTS
      (AbingdonScript.download_tile (fun _ => none) "osm" 13 0 0 false 4
        (.resp 200 [0])).acts ∧
    requestsSleepGuarded MappingService.MIN_DELAY_BETWEEN_REQUESTS
      MappingService.MAX_DELAY_BETWEEN_REQUESTS
      (MappingService.stream_tile_download ["osm"] 13 13 (fun _ => [(0, 0)])
        (fun _ => none) (fun _ => 1) (fun _ => .resp 200 [0])).acts :=
  ⟨C5_theorem.2.2.2.2.2.2.1 (fun _ => none) "osm" 13 0 0 false 4
      (.resp 200 [0])
      (by norm_num [AbingdonScript.MIN_DELAY_BETWEEN_REQUESTS])
      (by norm_num [AbingdonScript.MAX_DELAY_BETWEEN_REQUESTS]),
   C5_theorem.2.2.2.2.2.2.2 ["osm"] 13 13 (fun _ => [(0, 0)])
      (fun _ => none) (fun _ => 1) (fun _ => .resp 200 [0])
      (fun _ => ⟨by norm_num [MappingService.MIN_DELAY_BETWEEN_REQUESTS],
        by norm_num [MappingService.MIN_DELAY_BETWEEN_REQUESTS,
          MappingService.MAX_DELAY_BETWEEN_REQUESTS]⟩)⟩

/-- C6: idempotence of a re-run.  If every progress event of a first
streaming run reports success, then a second run of the same job starting
from the store the first run produced performs no actions at all — no sleep
and no HTTP request, the skip being decided before the delay — and every
progress event of the second run reports skipped. -/
theorem C6_theorem : ∀ (layers : List String) (minZoom maxZoom : ℕ)
    (tilesFor : ℕ → List (ℤ × ℤ)) (store : Store)
    (d1 d2 : TileKey → ℚ) (h1 h2 : TileKey → HttpResult),
    (∀ e ∈ (MappingService.stream_tile_download layers minZoom maxZoom tilesFor
        store d1 h1).events, e.isProgress = true →
        e.progressStatus = some .success) →
    (MappingService.stream_tile_download layers minZoom maxZoom tilesFor
      (MappingService.stream_tile_download layers minZoom maxZoom tilesFor
        store d1 h1).store d2 h2).acts = [] ∧
    (∀ e ∈ (MappingService.stream_tile_download layers minZoom maxZoom tilesFor
        (MappingService.stream_tile_download layers minZoom maxZoom tilesFor
          store d1 h1).store d2 h2).events,
      e.isProgress = true → e.progressStatus = some .skipped) := by
  intro layers minZoom maxZoom tilesFor store d1 d2 h1 h2 hall
  have hall1 : ∀ e ∈ (MappingService.runLayers d1 h1 tilesFor
      (MappingService.zoomRange minZoom maxZoom) layers store).events,
      e.isProgress = true → e.progressStatus = some .success := by
    intro e he
    exact hall e (by simp [MappingService.stream_tile_download, he])
  have hgood := MappingService.runLayers_success_good d1 h1 tilesFor
    (MappingService.zoomRange minZoom maxZoom) layers store hall1
  obtain ⟨hs, ha, he⟩ := MappingService.runLayers_inert d2 h2 tilesFor
    (MappingService.zoomRange minZoom maxZoom) layers
    ((MappingService.runLayers d1 h1 tilesFor
      (MappingService.zoomRange minZoom maxZoom) layers store).store)
    (fun layer hl z hz p hp => hgood layer hl z hz p hp)
  constructor
  · simpa [MappingService.stream_tile_download] using ha
  · intro e hme hip
    simp only [MappingService.stream_tile_download, List.mem_append,
      List.mem_singleton] at hme
    rcases hme with hin | rfl
    · exact he e hin hip
    · simp [Event.isProgress] at hip

/-- C6 (witness): a one-tile job whose first run succeeds; the second run
(against an oracle that would answer 404) performs no actions. -/
theorem C6_witness :
    (MappingService.stream_tile_download ["osm"] 13 13 (fun _ => [(0, 0)])
      (MappingService.stream_tile_download ["osm"] 13 13 (fun _ => [(0, 0)])
        (fun _ => none) (fun _ => 1) (fun _ => .resp 200 [0])).store
      (fun _ => 1) (fun _ => .resp 404 [])).acts = [] :=
  ( C6_theorem ["osm"] 13 13 (fun _ => [(0, 0)]) (fun _ => none)
    (fun _ => 1) (fun _ => 1) (fun _ => .resp 200 [0]) (fun _ => .resp 404 [])
    (by decide)).1

/-- C7: per-tile failures never abort the job.  For every oracle — including
oracles that answer every fetch with a failure, timeout, transport error or
blocked placeholder — the streamed run emits exactly one progress event per
tile of every (layer, zoom) pass and still ends with the completion
sentinel as its last event. -/
theorem C7_theorem : ∀ (layers : List String) (minZoom maxZoom : ℕ)
    (tilesFor : ℕ → List (ℤ × ℤ)) (store : Store)
    (delays : TileKey → ℚ) (https : TileKey → HttpResult),
    (MappingService.stream_tile_download layers minZoom maxZoom tilesFor store
      delays https).events.countP Event.isProgress =
      MappingService.totalTiles layers minZoom maxZoom tilesFor ∧
    (MappingService.stream_tile_download layers minZoom maxZoom tilesFor store
      delays https).events.getLast? = some Event.complete := by
  intro layers minZoom maxZoom tilesFor store delays https
  obtain ⟨h1, _, _, h4⟩ := MappingService.stream_counts layers minZoom maxZoom
    tilesFor store delays https
  exact ⟨h1, h4⟩

/-- C8 (counterexample): the stream emits more than one progress event per
tile plus a completion sentinel.  A one-layer, one-zoom, one-tile job emits
three events — the single progress event, a layer_complete event, and the
final sentinel — although the claim allows only two. -/
theorem C8_counterexample :
    (MappingService.stream_tile_download ["osm"] 13 13 (fun _ => [(0, 0)])
      (fun _ => none) (fun _ => 1) (fun _ => .resp 200 [0])).events.length = 3 ∧
    MappingService.totalTiles ["osm"] 13 13 (fun _ => [(0, 0)]) = 1 ∧
    (MappingService.stream_tile_download ["osm"] 13 13 (fun _ => [(0, 0)])
      (fun _ => none) (fun _ => 1) (fun _ => .resp 200 [0])).events.countP
      Event.isLayerComplete = 1 := by
  refine ⟨by decide, by decide, by decide⟩

/-- C8 (amended): the stream emits exactly one progress event per tile, plus
exactly one layer_complete event per (layer, zoom) pass, plus exactly one
final completion sentinel, which is the last element of the stream. -/
theorem C8_theorem : ∀ (layers : List String) (minZoom maxZoom : ℕ)
    (tilesFor : ℕ → List (ℤ × ℤ)) (store : Store)
    (delays : TileKey → ℚ) (https : TileKey → HttpResult),
    (MappingService.stream_tile_download layers minZoom maxZoom tilesFor store
      delays https).events.countP Event.isProgress =
      MappingService.totalTiles layers minZoom maxZoom tilesFor ∧
    (MappingService.stream_tile_download layers minZoom maxZoom tilesFor store
      delays https).events.countP Event.isLayerComplete =
      layers.length * (MappingService.zoomRange minZoom maxZoom).length ∧
    (MappingService.stream_tile_download layers minZoom maxZoom tilesFor store
      delays https).events.countP Event.isComplete = 1 ∧
    (MappingService.stream_tile_download layers minZoom maxZoom tilesFor store
      delays https).events.getLast? = some Event.complete :=
  fun layers minZoom maxZoom tilesFor store delays https =>
    MappingService.stream_counts layers minZoom maxZoom tilesFor store delays https

/-- C9: the counters embedded in every progress event are per-(layer, zoom)
pass counters: their six-way sum equals the completed field — the number of
tiles processed so far within the current pass — which is at least 1 and at
most the pass total, never a job-wide running total. -/
theorem C9_theorem : ∀ (layers : List String) (minZoom maxZoom : ℕ)
    (tilesFor : ℕ → List (ℤ × ℤ)) (store : Store)
    (delays : TileKey → ℚ) (https : TileKey → HttpResult)
    (l0 : String) (z0 : ℕ) (x0 y0 : ℤ) (st : Status) (c t : ℕ) (s0 : Stats),
    Event.progress l0 z0 x0 y0 st c t s0 ∈
      (MappingService.stream_tile_download layers minZoom maxZoom tilesFor store
        delays https).events →
    s0.total = c ∧ 1 ≤ c ∧ c ≤ t := by
  intro layers minZoom maxZoom tilesFor store delays https l0 z0 x0 y0 st c t s0 hmem
  simp only [MappingService.stream_tile_download, List.mem_append,
    List.mem_singleton] at hmem
  rcases hmem with hin | hEq
  · exact MappingService.runLayers_progress_inv delays https tilesFor
      (MappingService.zoomRange minZoom maxZoom) layers store l0 z0 x0 y0 st c t s0 hin
  · exact absurd hEq (by simp)

/-- C9 (witness): in a two-pass job (zooms 13 and 14, one tile each) the
progress event of the second pass carries counters summing to 1, its
within-pass completed count — not 2, the job-wide count. -/
theorem C9_witness : Stats.total ⟨1, 0, 0, 0, 0, 0⟩ = 1 ∧ 1 ≤ 1 ∧ (1 : ℕ) ≤ 1 :=
  C9_theorem ["osm"] 13 14 (fun _ => [(0, 0)]) (fun _ => none) (fun _ => 1)
    (fun _ => .resp 200 [0]) "osm" 14 0 0 .success 1 1 ⟨1, 0, 0, 0, 0, 0⟩
    (by decide)

end Claims3
